import Mathlib

/-!
# Random People: the `App` component of `src/src/App.js`

A shallow embedding of the React component `App`: its state (`useState` cells), the browser
key-value store (`localStorage`), the three asynchronous query handlers `findPeopleAxios`,
`findPeopleFetch` and `compareRequests`, and the event loop that drives them.

Conventions of the embedding.

* An `async` handler is cut at each `await` into segments; a segment runs atomically
  (the event loop is single-threaded) in the monad `Js`, which threads the `World` and
  carries JavaScript exceptions (`throw`, `try`/`catch`/`finally`).
* A `setX(v)` of React is applied to the state at once: nothing in a segment reads a state
  cell after setting it, and the closures of the next event see the re-rendered values.
* A handler reads `isLoading`, `gender` and `country` as of the last render; React
  re-renders after every event, and `useCallback` renews the closures whenever one of the
  three changes, so a handler sees the state left by the previous event.
* Every handler invocation that is accepted gets a query number (its index in
  `World.queries`); the effects it performs are logged in `World.trace` with that number.
* The environment is the source of the events: which request settles next and how, when
  a timer runs, what the user does. A settlement that no handler waits for does nothing.
* `performance.now()` differences are floating point; `(t).toFixed(2)` is modelled from the
  integer number of hundredths of a millisecond that `toFixed` rounds to.
* The value of a `results` property is a list of records or `undefined`; other JavaScript
  values are outside the model.
* `localStorage.setItem` returns or throws (a store at its quota, a browser that refuses
  the write): a settlement comes with the reply of the store to the write of its timing.
  `localStorage.getItem` at the first render is taken to return.
* After an event that changed a state cell React renders `App` again. A render that
  throws (it reads `.length` of `people.axios` and `people.fetch`) takes `App` off the
  page: from then on the state setters do nothing and no handler can be invoked, while
  the handlers already suspended at an `await` still resume. The components `SearchForm`
  and `Person` are not among the sources; rendering them is taken not to throw.
-/

namespace App

/-! ## Data -/

/-- A person record of the remote API; the component reads only `login.uuid`. -/
structure Person where
  uuid : String
deriving DecidableEq, Repr

/-- The JavaScript value of a `results` property: an array of records, or `undefined`
when the property is missing. -/
inductive Results where
  | undefined
  | records (list : List Person)
deriving DecidableEq, Repr

/-- The state cell `people`: `{ axios: ..., fetch: ... }`. -/
structure People where
  axios : Results
  fetch : Results
deriving DecidableEq, Repr

/-- The literal `{ axios: [], fetch: [] }`. -/
def People.empty : People := { axios := .records [], fetch := .records [] }

/-- The two HTTP client strategies. -/
inductive Adapter where
  | axios
  | fetch
deriving DecidableEq, Repr

/-- The `useState` cells of `App`. -/
structure AppState where
  people : People
  gender : String
  country : String
  isLoading : Bool
  loadingType : String
  axiosTime : String
  fetchTime : String
deriving DecidableEq, Repr

/-- A parsed response body as far as the handlers inspect it: `null`/`undefined`
(reading a property of it throws the engine's `TypeError`, whose message is carried),
or a value whose `results` property can be read. -/
inductive Data where
  | nullish (typeError : String)
  | object (results : Results)
deriving DecidableEq, Repr

/-- How the promise of `axios.get(url)` settles: rejected (transport failure or a status
outside 2xx) with the error's message, or resolved with `res.data`. -/
inductive AxiosOutcome where
  | rejected (message : String)
  | resolved (data : Data)
deriving DecidableEq, Repr

/-- How the promise of `fetch(url)` settles: rejected (transport failure) with the error's
message, or resolved with a response, of which the handlers read the properties `ok`
(set by the browser when the status is in the range 200 to 299), `status` and
`statusText`. -/
inductive FetchOutcome where
  | rejected (message : String)
  | responded (ok : Bool) (status : Nat) (statusText : String)
deriving DecidableEq, Repr

/-- How the promise of `response.json()` settles: rejected with a `SyntaxError` on a
malformed body, or resolved with the parsed value. -/
inductive Body where
  | malformed (syntaxError : String)
  | parsed (data : Data)
deriving DecidableEq, Repr

/-- How a call `localStorage.setItem(key, value)` ends: it returns, or it throws (the
store is at its quota, or the browser refuses the write) with the exception's message. -/
inductive StoreReply where
  | accepted
  | refused (message : String)
deriving DecidableEq, Repr

/-- The state of a JavaScript promise. -/
inductive Promise (α : Type) where
  | pending
  | fulfilled (value : α)
  | rejected (message : String)
deriving DecidableEq, Repr

/-- Progress of a `fetch` request: before the response arrives, while `response.json()`
reads the body, and settled. -/
inductive FetchStage where
  | awaitingResponse
  | awaitingBody
  | settled
deriving DecidableEq, Repr

/-- The promises created by one run of `compareRequests`: `axiosPromise`, `fetchPromise`
(with the progress of its request) and `Promise.all([axiosPromise, fetchPromise])`. -/
structure Comparison where
  axiosPromise : Promise Results
  fetchStage : FetchStage
  fetchPromise : Promise Results
  all : Promise (Results × Results)
deriving DecidableEq, Repr

/-- An accepted handler invocation and where it stands. -/
inductive Query where
  | axios (settled : Bool)
  | fetch (stage : FetchStage)
  | compare (c : Comparison)
deriving DecidableEq, Repr

/-- Observable effects of the handlers, in the order the source performs them. -/
inductive Effect where
  | setIsLoading (value : Bool)
  | setLoadingType (value : String)
  | setPeople (value : People)
  | setAxiosTime (value : String)
  | setFetchTime (value : String)
  | request (adapter : Adapter) (url : String)
  | consoleLog (message : String)
  | consoleError (message : String)
  | setItem (key value : String)
  | setTimeout (ms : Nat)
deriving DecidableEq, Repr

/-- The component state together with its environment: whether `App` is mounted (it is
until a render throws), `localStorage`, the accepted queries, the `setTimeout` callbacks
not yet run (each named by the query that scheduled it; all have the same delay, so they
run in order), and the log of effects, the most recent first, each with the query that
performed it. When `App` is not mounted, `app` holds the cells as they were at the
unmount. -/
structure World where
  app : AppState
  mounted : Bool
  localStorage : String → Option String
  queries : List Query
  timers : List Nat
  trace : List (Nat × Effect)

/-! ## The handler monad and its primitives -/

/-- Handler segments: state passing over `World` with JavaScript exceptions, an
exception being represented by its `message`. -/
abbrev Js := ExceptT String (StateM World)

/-- Add an effect of query `q` to the log. -/
def emit (q : Nat) (e : Effect) : Js Unit :=
  modify fun w => { w with trace := (q, e) :: w.trace }

/-- The world after a state setter of React has been called: the cells are updated when
`App` is mounted; a setter of an unmounted component does nothing. -/
def World.setState (w : World) (update : AppState → AppState) : World :=
  if w.mounted then { w with app := update w.app } else w

/-- A state setter of React. -/
def setState (update : AppState → AppState) : Js Unit :=
  modify fun w => w.setState update

def setIsLoading (q : Nat) (value : Bool) : Js Unit := do
  emit q (.setIsLoading value)
  setState fun app => { app with isLoading := value }

def setLoadingType (q : Nat) (value : String) : Js Unit := do
  emit q (.setLoadingType value)
  setState fun app => { app with loadingType := value }

/-- The React setter `setPeople`, in its updater form `setPeople(prev => ...)`; the plain
form `setPeople(v)` is `setPeople q (fun _ => v)`. The log records the new value. -/
def setPeople (q : Nat) (update : People → People) : Js Unit := do
  let next := update (← get).app.people
  emit q (.setPeople next)
  setState fun app => { app with people := next }

def setAxiosTime (q : Nat) (value : String) : Js Unit := do
  emit q (.setAxiosTime value)
  setState fun app => { app with axiosTime := value }

def setFetchTime (q : Nat) (value : String) : Js Unit := do
  emit q (.setFetchTime value)
  setState fun app => { app with fetchTime := value }

def consoleLog (q : Nat) (message : String) : Js Unit :=
  emit q (.consoleLog message)

def consoleError (q : Nat) (message : String) : Js Unit :=
  emit q (.consoleError message)

/-- The store after `setItem(key, value)`: `key` holds `value`, other keys are kept. -/
def setItem (storage : String → Option String) (key value : String) :
    String → Option String :=
  fun k => if k = key then some value else storage k

/-- The store operation `localStorage.setItem(key, value)`: when the browser accepts the
write the store is updated (and the write logged); otherwise the call throws and the
store is as before. -/
def localStorageSetItem (q : Nat) (key value : String) (reply : StoreReply) : Js Unit :=
  match reply with
  | .accepted => do
    emit q (.setItem key value)
    modify fun w => { w with localStorage := setItem w.localStorage key value }
  | .refused message => throw message

/-- The call `setTimeout(() => setIsLoading(false), ms)`: the callback is queued. -/
def setTimeout (q : Nat) (ms : Nat) : Js Unit := do
  emit q (.setTimeout ms)
  modify fun w => { w with timers := w.timers ++ [q] }

/-- Issue `axios.get(url)` or `fetch(url)`. -/
def sendRequest (q : Nat) (adapter : Adapter) (url : String) : Js Unit :=
  emit q (.request adapter url)

/-- The table of queries with entry `q` put to `query` (a new query is appended). -/
def setAt (queries : List Query) (q : Nat) (query : Query) : List Query :=
  if q < queries.length then queries.set q query else queries ++ [query]

/-- Record where query `q` stands. -/
def setQuery (q : Nat) (query : Query) : Js Unit :=
  modify fun w => { w with queries := setAt w.queries q query }

/-- The two-decimal rendering `x.toFixed(2)` of a non-negative elapsed time, from the
integer `n` of hundredths that `toFixed` rounds `x` to. -/
def toFixed2 (hundredths : Nat) : String :=
  toString (hundredths / 100) ++ "." ++ toString (hundredths % 100 / 10)
    ++ toString (hundredths % 10)

/-- Reading `.results` of a parsed value (also by destructuring): throws on `null`. -/
def readResults : Data → Js Results
  | .nullish typeError => throw typeError
  | .object results => pure results

/-- Resuming from `await axios.get(url)`. -/
def awaitAxios : AxiosOutcome → Js Data
  | .rejected message => throw message
  | .resolved data => pure data

/-- Resuming from `await fetch(url)`. -/
def awaitFetch : FetchOutcome → Js (Bool × Nat × String)
  | .rejected message => throw message
  | .responded ok status statusText => pure (ok, status, statusText)

/-- Resuming from `await response.json()`. -/
def awaitJson : Body → Js Data
  | .malformed syntaxError => throw syntaxError
  | .parsed data => pure data

/-- Resuming from `await` of a settled promise. -/
def awaitPromise {α : Type} : Promise α → Js (Option α)
  | .pending => pure none
  | .fulfilled v => pure (some v)
  | .rejected message => throw message

/-! ## The component -/

/-- The template literal of the request URL, line 20. -/
def url (gender country : String) : String :=
  "https://randomuser.me/api/?results=12&gender=" ++ gender ++ "&nat=" ++ country

/-- The expression `localStorage.getItem(key) || fallback`: `getItem` yields `null` for
an absent key, and `||` takes its right operand when the left one is falsy (`null` or the
empty string). -/
def getItemOr (storage : String → Option String) (key fallback : String) : String :=
  match storage key with
  | none => fallback
  | some value => if value = "" then fallback else value

/-- The first render: the initial values of the `useState` cells, lines 10-18. -/
def init (storage : String → Option String) : World :=
  { app :=
      { people := People.empty
        gender := ""
        country := "US"
        isLoading := false
        loadingType := ""
        axiosTime := getItemOr storage "axiosTime" "N/A"
        fetchTime := getItemOr storage "fetchTime" "N/A" }
    mounted := true
    localStorage := storage
    queries := []
    timers := []
    trace := [] }

/-- Handler `findPeopleAxios` up to `await axios.get(url)`, lines 24-30. -/
def findPeopleAxios (q : Nat) : Js Unit := do
  let render := (← get).app
  if render.isLoading then return
  setIsLoading q true
  setLoadingType q "axios"
  setPeople q fun _ => People.empty
  sendRequest q .axios (url render.gender render.country)
  setQuery q (.axios false)

/-- Handler `findPeopleAxios` from the settlement of `axios.get(url)`, lines 30-36. -/
def findPeopleAxiosSettled (q : Nat) (outcome : AxiosOutcome) : Js Unit := do
  setQuery q (.axios true)
  try
    let data ← awaitAxios outcome
    let results ← readResults data
    setPeople q fun prev => { prev with axios := results }
  catch error =>
    consoleError q ("Error en Axios: " ++ error)
  finally
    setTimeout q 500

/-- Handler `findPeopleFetch` up to `await fetch(url)`, lines 41-47. -/
def findPeopleFetch (q : Nat) : Js Unit := do
  let render := (← get).app
  if render.isLoading then return
  setIsLoading q true
  setLoadingType q "fetch"
  setPeople q fun _ => People.empty
  sendRequest q .fetch (url render.gender render.country)
  setQuery q (.fetch .awaitingResponse)

/-- The `catch` and `finally` blocks of `findPeopleFetch`, lines 52-56, around the part
of the `try` block that runs in the current segment and ends it. -/
def findPeopleFetchGuard (q : Nat) (body : Js Unit) : Js Unit := do
  setQuery q (.fetch .settled)
  try
    body
  catch error =>
    consoleError q ("Error en Fetch: " ++ error)
  finally
    setTimeout q 500

/-- The message of `new Error(...)` thrown on a response that is not `ok`, lines 48
and 84. -/
def httpError (status : Nat) (statusText : String) : String :=
  "Error HTTP: " ++ toString status ++ " - " ++ statusText

/-- Handler `findPeopleFetch` from the settlement of `fetch(url)`, lines 47-50: on an
`ok` response it suspends again at `await response.json()`. -/
def findPeopleFetchResponded (q : Nat) (outcome : FetchOutcome) : Js Unit :=
  match outcome with
  | .rejected message => findPeopleFetchGuard q (throw message)
  | .responded ok status statusText =>
    if ok then setQuery q (.fetch .awaitingBody)
    else findPeopleFetchGuard q (throw (httpError status statusText))

/-- Handler `findPeopleFetch` from the settlement of `response.json()`, lines 50-56. -/
def findPeopleFetchBody (q : Nat) (body : Body) : Js Unit :=
  findPeopleFetchGuard q do
    let data ← awaitJson body
    let results ← readResults data
    setPeople q fun prev => { prev with fetch := results }

/-- Handler `compareRequests` up to `await Promise.all(...)`, lines 61-97: both requests
are issued with the `url` of the render. -/
def compareRequests (q : Nat) : Js Unit := do
  let render := (← get).app
  if render.isLoading then return
  setIsLoading q true
  setLoadingType q "compare"
  setPeople q fun _ => People.empty
  let url := url render.gender render.country
  sendRequest q .axios url
  sendRequest q .fetch url
  setQuery q (.compare
    { axiosPromise := .pending, fetchStage := .awaitingResponse,
      fetchPromise := .pending, all := .pending })

/-- The callback of `axios.get(url).then(res => ...)`, lines 69-78. -/
def compareAxiosThen (q : Nat) (data : Data) (elapsed : Nat) (reply : StoreReply) :
    Js Results := do
  let axiosTime := toFixed2 elapsed
  consoleLog q ("Axios tomó: " ++ axiosTime ++ "ms")
  localStorageSetItem q "axiosTime" axiosTime reply
  setAxiosTime q axiosTime
  readResults data

/-- The callback of `fetch(url).then(async res => ...)` from `await res.json()` on,
lines 85-93. -/
def compareFetchThenBody (q : Nat) (body : Body) (elapsed : Nat) (reply : StoreReply) :
    Js Results := do
  let data ← awaitJson body
  let fetchTime := toFixed2 elapsed
  consoleLog q ("Fetch tomó: " ++ fetchTime ++ "ms")
  localStorageSetItem q "fetchTime" fetchTime reply
  setFetchTime q fetchTime
  readResults data

/-- Handler `compareRequests` from the settlement of `Promise.all`, lines 97-104. -/
def compareRequestsSettled (q : Nat) (all : Promise (Results × Results)) : Js Unit := do
  try
    match ← awaitPromise all with
    | some (axiosResponse, fetchResponse) =>
      setPeople q fun _ => { axios := axiosResponse, fetch := fetchResponse }
    | none => pure ()
  catch error =>
    consoleError q ("Error en comparación: " ++ error)
  finally
    setTimeout q 500

/-- The promise returned by `p.then(callback)` once `callback` has run: fulfilled with
its value, or rejected with what it threw. -/
def asPromise {α : Type} (callback : Js α) : Js (Promise α) :=
  try
    let value ← callback
    pure (.fulfilled value)
  catch message =>
    pure (.rejected message)

/-- The state of `Promise.all([axiosPromise, fetchPromise])` after a reaction: once
settled it stays; it rejects with the first rejection and fulfils when both have. -/
def Comparison.join (c : Comparison) : Promise (Results × Results) :=
  match c.all with
  | .pending =>
    match c.axiosPromise, c.fetchPromise with
    | .rejected message, _ => .rejected message
    | _, .rejected message => .rejected message
    | .fulfilled a, .fulfilled f => .fulfilled (a, f)
    | _, _ => .pending
  | settled => settled

/-- After one of the two promises of comparison `c` changed into `c1`: `Promise.all`
reacts, and if that settles it the handler resumes. -/
def compareReact (q : Nat) (c c1 : Comparison) : Js Unit := do
  let c2 := { c1 with all := c1.join }
  setQuery q (.compare c2)
  if c.all = .pending ∧ c2.all ≠ .pending then compareRequestsSettled q c2.all

/-- Settlement of `axios.get(url)` in comparison `c`. -/
def compareAxiosSettled (q : Nat) (c : Comparison) (outcome : AxiosOutcome)
    (elapsed : Nat) (reply : StoreReply) : Js Unit := do
  let p ← asPromise do
    let data ← awaitAxios outcome
    compareAxiosThen q data elapsed reply
  compareReact q c { c with axiosPromise := p }

/-- Settlement of `fetch(url)` in comparison `c`, lines 83-85: on an `ok` response the
callback suspends at `await res.json()`, otherwise `fetchPromise` rejects. -/
def compareFetchResponded (q : Nat) (c : Comparison) (outcome : FetchOutcome) :
    Js Unit := do
  let p ← asPromise do
    let (ok, status, statusText) ← awaitFetch outcome
    if !ok then throw (httpError status statusText)
  match p with
  | .rejected message =>
    compareReact q c { c with fetchStage := .settled, fetchPromise := .rejected message }
  | _ => setQuery q (.compare { c with fetchStage := .awaitingBody })

/-- Settlement of `res.json()` in comparison `c`. -/
def compareFetchBody (q : Nat) (c : Comparison) (body : Body) (elapsed : Nat)
    (reply : StoreReply) : Js Unit := do
  let p ← asPromise (compareFetchThenBody q body elapsed reply)
  compareReact q c { c with fetchStage := .settled, fetchPromise := p }

/-- The three query handlers. -/
inductive Handler where
  | findPeopleAxios
  | findPeopleFetch
  | compareRequests
deriving DecidableEq, Repr

/-- What can happen next: the user invokes a handler or changes an input, a request
settles, or the oldest `setTimeout` callback runs. With a settlement come the `elapsed`
hundredths measured for it and the `reply` of the store to the write of that timing; both
are read only by `compareRequests`. -/
inductive Event where
  | invoke (handler : Handler)
  | handleGender (value : String)
  | handleCountry (value : String)
  | axiosSettles (q : Nat) (outcome : AxiosOutcome) (elapsed : Nat) (reply : StoreReply)
  | fetchResponds (q : Nat) (outcome : FetchOutcome)
  | bodyRead (q : Nat) (body : Body) (elapsed : Nat) (reply : StoreReply)
  | timerFires
deriving DecidableEq, Repr

/-- Run a segment: its completion (an escaped exception is an `error`) and the world
it leaves. -/
def Js.exec {α : Type} (x : Js α) (w : World) : Except String α × World :=
  (ExceptT.run x).run w

/-- What a results grid shows, lines 138-144 and 150-156. -/
inductive Grid where
  | cards (people : List Person)
  | noResults
  | nothing
deriving DecidableEq, Repr

/-- The grid of one panel; `none` when reading `.length` of `undefined` throws. -/
def peopleGrid (results : Results) (isLoading : Bool) : Option Grid :=
  match results with
  | .undefined => none
  | .records list =>
    if list.length > 0 then some (.cards list)
    else if !isLoading then some .noResults else some .nothing

/-- The component `VisualizarTiempos`: its two paragraphs. -/
def VisualizarTiempos (axiosTime fetchTime : String) : List String :=
  ["Último tiempo con Axios: " ++ axiosTime ++ "ms",
   "Último tiempo con Fetch: " ++ fetchTime ++ "ms"]

/-- A button of `App-controls`, lines 122-130. -/
structure Button where
  label : String
  disabled : Bool
deriving DecidableEq, Repr

/-- A section of `App-results`: whether it shows "Cargando datos...", and its grid. -/
structure Panel where
  loading : Bool
  grid : Grid
deriving DecidableEq, Repr

/-- What `App` returns, lines 111-160 (the form `SearchForm` and the cards `Person` are
components outside these sources; rendering them is taken not to throw). -/
structure View where
  timings : List String
  buttons : List Button
  axios : Panel
  fetch : Panel
deriving DecidableEq, Repr

/-- The render of `App`, lines 111-160; `none` when it throws, which it does when
`people.axios` or `people.fetch` is `undefined`. -/
def render (app : AppState) : Option View := do
  let axiosGrid ← peopleGrid app.people.axios app.isLoading
  let fetchGrid ← peopleGrid app.people.fetch app.isLoading
  pure
    { timings := VisualizarTiempos app.axiosTime app.fetchTime
      buttons :=
        [{ label := if app.isLoading && app.loadingType == "axios" then "Cargando..."
                    else "Buscar con Axios"
           disabled := app.isLoading },
         { label := if app.isLoading && app.loadingType == "fetch" then "Cargando..."
                    else "Buscar con Fetch"
           disabled := app.isLoading },
         { label := if app.isLoading && app.loadingType == "compare" then "Cargando..."
                    else "Comparar Axios vs Fetch"
           disabled := app.isLoading }]
      axios := { loading := app.isLoading && app.loadingType == "axios", grid := axiosGrid }
      fetch := { loading := app.isLoading && app.loadingType == "fetch", grid := fetchGrid } }

/-- The code an event runs in world `w`: a handler from its start (the buttons exist only
while `App` is mounted), or the segment that the settled request resumes; an event with
nothing to resume runs nothing. -/
def dispatch (w : World) : Event → Js Unit
  | .invoke handler =>
    if w.mounted then
      match handler with
      | .findPeopleAxios => findPeopleAxios w.queries.length
      | .findPeopleFetch => findPeopleFetch w.queries.length
      | .compareRequests => compareRequests w.queries.length
    else pure ()
  | .handleGender value => setState fun app => { app with gender := value }
  | .handleCountry value => setState fun app => { app with country := value }
  | .axiosSettles q outcome elapsed reply =>
    match w.queries[q]? with
    | some (.axios false) => findPeopleAxiosSettled q outcome
    | some (.compare c) =>
      if c.axiosPromise = .pending then compareAxiosSettled q c outcome elapsed reply
      else pure ()
    | _ => pure ()
  | .fetchResponds q outcome =>
    match w.queries[q]? with
    | some (.fetch .awaitingResponse) => findPeopleFetchResponded q outcome
    | some (.compare c) =>
      if c.fetchStage = .awaitingResponse then compareFetchResponded q c outcome
      else pure ()
    | _ => pure ()
  | .bodyRead q body elapsed reply =>
    match w.queries[q]? with
    | some (.fetch .awaitingBody) => findPeopleFetchBody q body
    | some (.compare c) =>
      if c.fetchStage = .awaitingBody then compareFetchBody q c body elapsed reply
      else pure ()
    | _ => pure ()
  | .timerFires =>
    match w.timers with
    | [] => pure ()
    | q :: rest => do
      modify fun w => { w with timers := rest }
      setIsLoading q false

/-- The world after the code of an event has run, before React renders again. -/
def handled (w : World) (e : Event) : World :=
  ((dispatch w e).exec w).2

/-- React renders again after an event that changed a cell of the mounted `App` (a render
of unchanged cells would repeat the previous one); when that render throws, React
unmounts `App`. The report of React about the thrown error is not an effect of a handler
and is not entered in the log: `mounted` records the failure. -/
def rendered (before after : World) : World :=
  if after.mounted ∧ after.app ≠ before.app ∧ render after.app = none then
    { after with mounted := false }
  else after

/-- One step of the event loop: the code of the event, then the render. -/
def step (w : World) (e : Event) : World :=
  rendered w (handled w e)

/-- Run a sequence of events. -/
def run (w : World) (events : List Event) : World :=
  events.foldl step w

/-- Requests of a query that have not settled. -/
def Query.outstanding : Query → Nat
  | .axios settled => if settled then 0 else 1
  | .fetch stage => if stage = .settled then 0 else 1
  | .compare c =>
    (if c.axiosPromise = .pending then 1 else 0) + (if c.fetchStage = .settled then 0 else 1)

/-- Requests in flight. -/
def World.outstanding (w : World) : Nat :=
  (w.queries.map Query.outstanding).sum

/-! ## The segments in direct style

The worlds that the segments leave, written without the monad; the theorems named
`..._exec` below show that the segments of the handlers produce exactly these. -/

/-- The world after the part common to the three handlers, lines 24-27: the busy flag is
set, `loadingType` named, `people` reset; then the requests `reqs` go out (the last of
the list first) and the query is recorded. -/
def accepted (w : World) (q : Nat) (loadingType : String) (reqs : List Adapter)
    (query : Query) : World :=
  { (w.setState fun app =>
      { app with isLoading := true, loadingType := loadingType, people := People.empty }) with
    queries := setAt w.queries q query
    trace := reqs.map (fun a => (q, Effect.request a (url w.app.gender w.app.country)))
      ++ (q, .setPeople People.empty) :: (q, .setLoadingType loadingType)
      :: (q, .setIsLoading true) :: w.trace }

/-- The world after the `catch` and `finally` blocks of a handler whose `try` block threw
`message`: the error is logged under the handler's `label` and the timer is set. -/
def failed (w : World) (q : Nat) (label message : String) : World :=
  { w with
    timers := w.timers ++ [q]
    trace := (q, .setTimeout 500) :: (q, .consoleError (label ++ message)) :: w.trace }

/-- The world after a handler's `try` block ended with `setPeople` giving `people`, and
its `finally` block. -/
def published (w : World) (q : Nat) (people : People) : World :=
  { (w.setState fun app => { app with people := people }) with
    timers := w.timers ++ [q]
    trace := (q, .setTimeout 500) :: (q, .setPeople people) :: w.trace }

/-- What reading `results` off the settled `axios.get(url)` yields, or the error. -/
def AxiosOutcome.results : AxiosOutcome → Except String Results
  | .rejected message => .error message
  | .resolved (.nullish typeError) => .error typeError
  | .resolved (.object results) => .ok results

/-- What reading `results` off the settled `response.json()` yields, or the error. -/
def Body.results : Body → Except String Results
  | .malformed syntaxError => .error syntaxError
  | .parsed (.nullish typeError) => .error typeError
  | .parsed (.object results) => .ok results

/-- The error with which the wait for an `ok` response ends, if it does. -/
def FetchOutcome.failure : FetchOutcome → Option String
  | .rejected message => some message
  | .responded ok status statusText => if ok then none else some (httpError status statusText)

/-- What the callback of `axios.get(url).then(...)` in `compareRequests` returns, or the
error: a refused write of the timing throws before `results` is read. -/
def AxiosOutcome.timedResults (outcome : AxiosOutcome) (reply : StoreReply) :
    Except String Results :=
  match outcome, reply with
  | .rejected message, _ => .error message
  | .resolved _, .refused message => .error message
  | .resolved data, .accepted => (AxiosOutcome.resolved data).results

/-- What the callback of `fetch(url).then(...)` in `compareRequests` returns after
`res.json()`, or the error: a malformed body throws first, then a refused write. -/
def Body.timedResults (body : Body) (reply : StoreReply) : Except String Results :=
  match body, reply with
  | .malformed syntaxError, _ => .error syntaxError
  | .parsed _, .refused message => .error message
  | .parsed data, .accepted => (Body.parsed data).results

/-- A promise settled with a value or an error. -/
def Promise.settled {α : Type} : Except String α → Promise α
  | .ok value => .fulfilled value
  | .error message => .rejected message

/-- The world after the timing of an adapter has been logged and, when the store accepts
it, stored under `key` and put in its state cell (`axios` tells which cell). -/
def timed (w : World) (q : Nat) (axios : Bool) (name key time : String)
    (reply : StoreReply) : World :=
  match reply with
  | .accepted =>
    { (w.setState fun app =>
        if axios then { app with axiosTime := time } else { app with fetchTime := time }) with
      localStorage := setItem w.localStorage key time
      trace := (q, if axios then .setAxiosTime time else .setFetchTime time)
        :: (q, .setItem key time) :: (q, .consoleLog (name ++ " tomó: " ++ time ++ "ms"))
        :: w.trace }
  | .refused _ =>
    { w with trace := (q, .consoleLog (name ++ " tomó: " ++ time ++ "ms")) :: w.trace }

/-- The world after `Promise.all` has reacted to comparison `c` becoming `c1`. -/
def reacted (w : World) (q : Nat) (c c1 : Comparison) : World :=
  let w1 := { w with queries := setAt w.queries q (.compare { c1 with all := c1.join }) }
  if c.all = .pending then
    match c1.join with
    | .pending => w1
    | .fulfilled (a, f) => published w1 q { axios := a, fetch := f }
    | .rejected message => failed w1 q "Error en comparación: " message
  else w1

/-- The promises of a comparison when `compareRequests` reaches `await Promise.all`. -/
def Comparison.fresh : Comparison :=
  { axiosPromise := .pending, fetchStage := .awaitingResponse,
    fetchPromise := .pending, all := .pending }

/-- The promises of a comparison after an event of its run: a settlement that the
comparison still waits for settles the adapter's promise, and `Promise.all` reacts. -/
def Comparison.after (c : Comparison) : Event → Comparison
  | .axiosSettles _ outcome _ reply =>
    if c.axiosPromise = .pending then
      { c with
        axiosPromise := Promise.settled (outcome.timedResults reply)
        all := Comparison.join
          { c with axiosPromise := Promise.settled (outcome.timedResults reply) } }
    else c
  | .fetchResponds _ outcome =>
    if c.fetchStage = .awaitingResponse then
      match outcome.failure with
      | none => { c with fetchStage := .awaitingBody }
      | some message =>
        { c with
          fetchStage := .settled
          fetchPromise := .rejected message
          all := Comparison.join
            { c with fetchStage := .settled, fetchPromise := .rejected message } }
    else c
  | .bodyRead _ body _ reply =>
    if c.fetchStage = .awaitingBody then
      { c with
        fetchStage := .settled
        fetchPromise := Promise.settled (body.timedResults reply)
        all := Comparison.join
          { c with
            fetchStage := .settled, fetchPromise := Promise.settled (body.timedResults reply) } }
    else c
  | _ => c

/-! ## Readings of worlds, events and logs -/

/-- The timing data: the two timing cells and the store. -/
def World.timingData (w : World) : String × String × (String → Option String) :=
  (w.app.axiosTime, w.app.fetchTime, w.localStorage)

/-- The query an event settles a request of, if it does. -/
def Event.target : Event → Option Nat
  | .axiosSettles q _ _ _ => some q
  | .fetchResponds q _ => some q
  | .bodyRead q _ _ _ => some q
  | _ => none

/-- Whether an event belongs to the run of query `q`: a settlement of one of its requests,
a timer, or a change of an input; not an invocation of a handler. -/
def Event.within (q : Nat) : Event → Bool
  | .invoke _ => false
  | .axiosSettles i _ _ _ => i = q
  | .fetchResponds i _ => i = q
  | .bodyRead i _ _ _ => i = q
  | _ => true

/-- The handler a query is a run of. -/
def Query.kind : Query → Handler
  | .axios _ => .findPeopleAxios
  | .fetch _ => .findPeopleFetch
  | .compare _ => .compareRequests

/-- Whether the handler of a query is suspended at an `await` (1) or has finished (0). -/
def Query.suspended : Query → Nat
  | .axios settled => if settled then 0 else 1
  | .fetch stage => if stage = .settled then 0 else 1
  | .compare c => if c.all = .pending then 1 else 0

/-- The number of suspended handlers. -/
def World.suspended (w : World) : Nat :=
  (w.queries.map Query.suspended).sum

/-- The effects of a log that write to the store. -/
def storageWrites (trace : List (Nat × Effect)) : List (Nat × Effect) :=
  trace.filter fun entry =>
    match entry.2 with
    | .setItem _ _ => true
    | _ => false

/-- The errors logged with `console.error`, the most recent first. -/
def loggedErrors (trace : List (Nat × Effect)) : List String :=
  trace.filterMap fun entry =>
    match entry.2 with
    | .consoleError message => some message
    | _ => none

/-- The values given to `setPeople`, the most recent first. -/
def peopleUpdates (trace : List (Nat × Effect)) : List People :=
  trace.filterMap fun entry =>
    match entry.2 with
    | .setPeople people => some people
    | _ => none

/-- Whether a value of `people.axios` or `people.fetch` makes its panel show records. -/
def Results.displayed : Results → Bool
  | .records (_ :: _) => true
  | _ => false

/-- Whether the log holds a `localStorage.setItem(key, ...)` of query `q`. -/
def wrote (q : Nat) (key : String) (trace : List (Nat × Effect)) : Bool :=
  trace.any fun entry =>
    match entry with
    | (i, .setItem k _) => i = q && k = key
    | _ => false

/-! ## Invariants -/

/-- The busy flag guards the handlers: either no handler is suspended, at most one timer
is queued and the flag is down only when none is; or one handler is suspended, the flag
is up and no timer is queued. -/
def Exclusive (w : World) : Prop :=
  (w.suspended = 0 ∧ w.timers.length ≤ 1 ∧ (w.app.isLoading = false → w.timers = [])) ∨
    (w.suspended = 1 ∧ w.app.isLoading = true ∧ w.timers = [])

/-- What holds of a comparison `q` with promises `c` from its acceptance on, `base` being
the updates of `people` made before it: `people` and the updates made since follow
`Promise.all`, and `App` is mounted as long as `Promise.all` is pending. -/
def Published (base : List People) (q : Nat) (w : World) (c : Comparison) : Prop :=
  w.queries[q]? = some (.compare c) ∧
    (c.fetchStage = .settled ↔ c.fetchPromise ≠ .pending) ∧
    match c.all with
    | .pending =>
      w.mounted = true ∧
      (∀ m, c.axiosPromise ≠ .rejected m) ∧ (∀ m, c.fetchPromise ≠ .rejected m) ∧
      (c.axiosPromise = .pending ∨ c.fetchPromise = .pending) ∧
      w.app.people = People.empty ∧ peopleUpdates w.trace = People.empty :: base
    | .fulfilled (a, f) =>
      c.axiosPromise = .fulfilled a ∧ c.fetchPromise = .fulfilled f ∧
      w.app.people = { axios := a, fetch := f } ∧
      peopleUpdates w.trace = { axios := a, fetch := f } :: People.empty :: base
    | .rejected _ =>
      ((∃ m, c.axiosPromise = .rejected m) ∨ (∃ m, c.fetchPromise = .rejected m)) ∧
      w.app.people = People.empty ∧ peopleUpdates w.trace = People.empty :: base

/-- In a log (the most recent entry first): before every `setPeople` of query `q`
that makes a panel show records, query `q` has stored that adapter's timing. -/
def timingFirst (q : Nat) : List (Nat × Effect) → Prop
  | [] => True
  | (i, .setPeople people) :: earlier =>
    (i = q → (people.axios.displayed = true → wrote q "axiosTime" earlier = true) ∧
      (people.fetch.displayed = true → wrote q "fetchTime" earlier = true)) ∧
    timingFirst q earlier
  | _ :: earlier => timingFirst q earlier

/-- What holds of a comparison `q` with promises `c` from its acceptance on: a fulfilled
adapter promise has stored its timing, and the log is in order. -/
def Timed (q : Nat) (w : World) (c : Comparison) : Prop :=
  w.queries[q]? = some (.compare c) ∧
    (∀ a, c.axiosPromise = .fulfilled a → wrote q "axiosTime" w.trace = true) ∧
    (∀ f, c.fetchPromise = .fulfilled f → wrote q "fetchTime" w.trace = true) ∧
    timingFirst q w.trace

/-! ## Concrete inputs -/

/-- A record used in concrete inputs. -/
def alice : Person := { uuid := "a1" }

/-- An empty store. -/
def emptyStore : String → Option String := fun _ => none

/-- A store in which the key `axiosTime` holds the empty string. -/
def blankAxiosTime : String → Option String := setItem emptyStore "axiosTime" ""

/-- The world right after an accepted `compareRequests` on a fresh page. -/
def comparing : World := step (init emptyStore) (.invoke .compareRequests)

/-- A comparison whose axios request failed and whose busy flag has been cleared while
its fetch request is still on its way. -/
def halfSettled : World :=
  run (init emptyStore)
    [.invoke .compareRequests, .axiosSettles 0 (.rejected "Network Error") 0 .accepted,
      .timerFires]

/-! ## Basic facts -/

theorem toFixed2_ne_empty (n : Nat) : toFixed2 n ≠ "" := by
  intro h
  have h1 : (toFixed2 n).length = 0 := by rw [h]; rfl
  simp only [toFixed2, String.length_append] at h1
  have h2 : ".".length = 1 := rfl
  omega

theorem getItemOr_setItem (st : String → Option String) (key value fallback : String)
    (h : value ≠ "") : getItemOr (setItem st key value) key fallback = value := by
  simp [getItemOr, setItem, h]

theorem lt_length_of_getElem? {α : Type} {l : List α} {q : Nat} {x : α}
    (h : l[q]? = some x) : q < l.length := by
  rcases Nat.lt_or_ge q l.length with h1 | h1
  · exact h1
  · rw [List.getElem?_eq_none h1] at h; cases h

theorem getElem?_setAt_self (qs : List Query) (q : Nat) (x : Query) (h : q ≤ qs.length) :
    (setAt qs q x)[q]? = some x := by
  unfold setAt
  split
  · simp [*]
  · have : q = qs.length := by omega
    subst this
    simp

theorem getElem?_setAt_ne (qs : List Query) (q i : Nat) (x : Query) (h : q ≤ qs.length)
    (hi : i ≠ q) : (setAt qs q x)[i]? = qs[i]? := by
  unfold setAt
  split
  · simp [List.getElem?_set, Ne.symm hi]
  · have : q = qs.length := by omega
    subst this
    rcases Nat.lt_or_ge i qs.length with h1 | h1
    · simp [List.getElem?_append_left, h1]
    · have h2 : qs.length < i := by omega
      rw [List.getElem?_eq_none h1, List.getElem?_eq_none]
      simp; omega

theorem setAt_length (qs : List Query) (x : Query) : setAt qs qs.length x = qs ++ [x] := by
  simp [setAt]

theorem setAt_append_length (qs : List Query) (x y : Query) :
    setAt (qs ++ [x]) qs.length y = qs ++ [y] := by
  simp [setAt]

theorem getElem?_append_length (qs : List Query) (x : Query) :
    (qs ++ [x])[qs.length]? = some x := by
  simp

theorem sum_setAt (f : Query → Nat) (x y : Query) :
    ∀ (qs : List Query) (q : Nat), qs[q]? = some y →
      ((setAt qs q x).map f).sum + f y = (qs.map f).sum + f x := by
  intro qs
  induction qs with
  | nil => intro q h; simp at h
  | cons z qs ih =>
    intro q h
    cases q with
    | zero =>
      simp only [List.getElem?_cons_zero, Option.some.injEq] at h
      subst h
      simp [setAt]
      omega
    | succ q =>
      simp only [List.getElem?_cons_succ] at h
      have hq := lt_length_of_getElem? h
      have := ih q h
      simp [setAt, hq] at this ⊢
      omega

theorem sum_setAt_length (f : Query → Nat) (x : Query) (qs : List Query) :
    ((setAt qs qs.length x).map f).sum = (qs.map f).sum + f x := by
  simp [setAt]

theorem kind_setAt (qs : List Query) (q i : Nat) (x y : Query) (h : qs[q]? = some y)
    (hk : x.kind = y.kind) : ((setAt qs q x)[i]?).map Query.kind = (qs[i]?).map Query.kind := by
  have hq := lt_length_of_getElem? h
  by_cases hi : i = q
  · subst hi
    rw [getElem?_setAt_self _ _ _ (Nat.le_of_lt hq), h]
    simp [hk]
  · rw [getElem?_setAt_ne _ _ _ _ (Nat.le_of_lt hq) hi]

/-! ## The segments agree with their direct style -/

theorem findPeopleAxios_exec (w : World) (q : Nat) :
    (findPeopleAxios q).exec w =
      (.ok (), if w.app.isLoading then w else accepted w q "axios" [.axios] (.axios false)) := by
  obtain ⟨⟨p, g, c, l, lt, at1, ft⟩, m, st, qs, ts, tr⟩ := w
  cases l <;> cases m <;> rfl

theorem findPeopleFetch_exec (w : World) (q : Nat) :
    (findPeopleFetch q).exec w =
      (.ok (), if w.app.isLoading then w
        else accepted w q "fetch" [.fetch] (.fetch .awaitingResponse)) := by
  obtain ⟨⟨p, g, c, l, lt, at1, ft⟩, m, st, qs, ts, tr⟩ := w
  cases l <;> cases m <;> rfl

theorem compareRequests_exec (w : World) (q : Nat) :
    (compareRequests q).exec w =
      (.ok (), if w.app.isLoading then w
        else accepted w q "compare" [.fetch, .axios] (.compare Comparison.fresh)) := by
  obtain ⟨⟨p, g, c, l, lt, at1, ft⟩, m, st, qs, ts, tr⟩ := w
  cases l <;> cases m <;> rfl

theorem findPeopleAxiosSettled_exec (w : World) (q : Nat) (o : AxiosOutcome) :
    (findPeopleAxiosSettled q o).exec w =
      (.ok (),
        match o.results with
        | .ok results =>
          published { w with queries := setAt w.queries q (.axios true) } q
            { w.app.people with axios := results }
        | .error message =>
          failed { w with queries := setAt w.queries q (.axios true) } q
            "Error en Axios: " message) := by
  obtain ⟨app, m, st, qs, ts, tr⟩ := w
  rcases o with m' | (e | r) <;> cases m <;> rfl

theorem findPeopleFetchResponded_exec (w : World) (q : Nat) (o : FetchOutcome) :
    (findPeopleFetchResponded q o).exec w =
      (.ok (),
        match o.failure with
        | none => { w with queries := setAt w.queries q (.fetch .awaitingBody) }
        | some message =>
          failed { w with queries := setAt w.queries q (.fetch .settled) } q
            "Error en Fetch: " message) := by
  rcases o with m | ⟨_ | _, s, t⟩ <;> rfl

theorem findPeopleFetchBody_exec (w : World) (q : Nat) (b : Body) :
    (findPeopleFetchBody q b).exec w =
      (.ok (),
        match b.results with
        | .ok results =>
          published { w with queries := setAt w.queries q (.fetch .settled) } q
            { w.app.people with fetch := results }
        | .error message =>
          failed { w with queries := setAt w.queries q (.fetch .settled) } q
            "Error en Fetch: " message) := by
  obtain ⟨app, m, st, qs, ts, tr⟩ := w
  rcases b with m' | (e | r) <;> cases m <;> rfl

theorem compareReact_exec (w : World) (q : Nat) (c c1 : Comparison) :
    (compareReact q c c1).exec w = (.ok (), reacted w q c c1) := by
  obtain ⟨app, m, st, qs, ts, tr⟩ := w
  obtain ⟨a, fs, f, al⟩ := c
  obtain ⟨a1, fs1, f1, al1⟩ := c1
  rcases al with _ | _ | _ <;> rcases al1 with _ | ⟨_, _⟩ | _ <;> rcases a1 with _ | _ | _ <;>
    rcases f1 with _ | _ | _ <;> cases m <;> rfl

theorem compareAxiosSettled_exec (w : World) (q : Nat) (c : Comparison)
    (o : AxiosOutcome) (n : Nat) (reply : StoreReply) :
    (compareAxiosSettled q c o n reply).exec w =
      (.ok (),
        reacted
          (match o with
            | .rejected _ => w
            | .resolved _ => timed w q true "Axios" "axiosTime" (toFixed2 n) reply)
          q c { c with axiosPromise := Promise.settled (o.timedResults reply) }) := by
  obtain ⟨app, m, st, qs, ts, tr⟩ := w
  rcases o with m' | (e | r) <;> rcases reply with _ | m'' <;> cases m <;>
    exact compareReact_exec _ _ _ _

theorem compareFetchResponded_exec (w : World) (q : Nat) (c : Comparison)
    (o : FetchOutcome) :
    (compareFetchResponded q c o).exec w =
      (.ok (),
        match o.failure with
        | none =>
          { w with queries := setAt w.queries q (.compare { c with fetchStage := .awaitingBody }) }
        | some message =>
          reacted w q c { c with fetchStage := .settled, fetchPromise := .rejected message }) := by
  rcases o with m | ⟨_ | _, s, t⟩
  · exact compareReact_exec _ _ _ _
  · exact compareReact_exec _ _ _ _
  · rfl

theorem compareFetchBody_exec (w : World) (q : Nat) (c : Comparison)
    (b : Body) (n : Nat) (reply : StoreReply) :
    (compareFetchBody q c b n reply).exec w =
      (.ok (),
        reacted
          (match b with
            | .malformed _ => w
            | .parsed _ => timed w q false "Fetch" "fetchTime" (toFixed2 n) reply)
          q c
          { c with
            fetchStage := .settled, fetchPromise := Promise.settled (b.timedResults reply) }) := by
  obtain ⟨app, m, st, qs, ts, tr⟩ := w
  rcases b with m' | (e | r) <;> rcases reply with _ | m'' <;> cases m <;>
    exact compareReact_exec _ _ _ _

theorem reacted_queries (w : World) (q : Nat) (c c1 : Comparison) :
    (reacted w q c c1).queries = setAt w.queries q (.compare { c1 with all := c1.join }) := by
  obtain ⟨app, m, st, qs, ts, tr⟩ := w
  unfold reacted
  split
  · split <;> cases m <;> rfl
  · rfl

theorem reacted_timingData (w : World) (q : Nat) (c c1 : Comparison) :
    (reacted w q c c1).timingData = w.timingData := by
  obtain ⟨app, m, st, qs, ts, tr⟩ := w
  unfold reacted
  split
  · split <;> cases m <;> rfl
  · rfl

theorem reacted_mounted (w : World) (q : Nat) (c c1 : Comparison) :
    (reacted w q c c1).mounted = w.mounted := by
  obtain ⟨app, m, st, qs, ts, tr⟩ := w
  unfold reacted
  split
  · split <;> cases m <;> rfl
  · rfl

theorem timed_mounted (w : World) (q : Nat) (axios : Bool) (name key time : String)
    (reply : StoreReply) : (timed w q axios name key time reply).mounted = w.mounted := by
  obtain ⟨app, m, st, qs, ts, tr⟩ := w
  cases reply <;> cases m <;> rfl

theorem timed_queries (w : World) (q : Nat) (axios : Bool) (name key time : String)
    (reply : StoreReply) : (timed w q axios name key time reply).queries = w.queries := by
  obtain ⟨app, m, st, qs, ts, tr⟩ := w
  cases reply <;> cases m <;> rfl

/-! ## The steps in direct style -/

theorem handled_invoke_findPeopleAxios (w : World) :
    handled w (.invoke .findPeopleAxios) =
      if w.mounted = true ∧ w.app.isLoading = false then
        accepted w w.queries.length "axios" [.axios] (.axios false)
      else w := by
  obtain ⟨⟨p, g, c, l, lt, at1, ft⟩, m, st, qs, ts, tr⟩ := w
  cases l <;> cases m <;> rfl

theorem handled_invoke_findPeopleFetch (w : World) :
    handled w (.invoke .findPeopleFetch) =
      if w.mounted = true ∧ w.app.isLoading = false then
        accepted w w.queries.length "fetch" [.fetch] (.fetch .awaitingResponse)
      else w := by
  obtain ⟨⟨p, g, c, l, lt, at1, ft⟩, m, st, qs, ts, tr⟩ := w
  cases l <;> cases m <;> rfl

theorem handled_invoke_compareRequests (w : World) :
    handled w (.invoke .compareRequests) =
      if w.mounted = true ∧ w.app.isLoading = false then
        accepted w w.queries.length "compare" [.fetch, .axios] (.compare Comparison.fresh)
      else w := by
  obtain ⟨⟨p, g, c, l, lt, at1, ft⟩, m, st, qs, ts, tr⟩ := w
  cases l <;> cases m <;> rfl

theorem handled_axiosSettles (w : World) (q : Nat) (o : AxiosOutcome) (n : Nat)
    (reply : StoreReply) :
    handled w (.axiosSettles q o n reply) =
      match w.queries[q]? with
      | some (.axios false) => ((findPeopleAxiosSettled q o).exec w).2
      | some (.compare c) =>
        if c.axiosPromise = .pending then ((compareAxiosSettled q c o n reply).exec w).2
        else w
      | _ => w := by
  simp only [handled, dispatch]
  split
  · rfl
  · split <;> rfl
  · rfl

theorem handled_fetchResponds (w : World) (q : Nat) (o : FetchOutcome) :
    handled w (.fetchResponds q o) =
      match w.queries[q]? with
      | some (.fetch .awaitingResponse) => ((findPeopleFetchResponded q o).exec w).2
      | some (.compare c) =>
        if c.fetchStage = .awaitingResponse then ((compareFetchResponded q c o).exec w).2
        else w
      | _ => w := by
  simp only [handled, dispatch]
  split
  · rfl
  · split <;> rfl
  · rfl

theorem handled_bodyRead (w : World) (q : Nat) (b : Body) (n : Nat) (reply : StoreReply) :
    handled w (.bodyRead q b n reply) =
      match w.queries[q]? with
      | some (.fetch .awaitingBody) => ((findPeopleFetchBody q b).exec w).2
      | some (.compare c) =>
        if c.fetchStage = .awaitingBody then ((compareFetchBody q c b n reply).exec w).2
        else w
      | _ => w := by
  simp only [handled, dispatch]
  split
  · rfl
  · split <;> rfl
  · rfl

theorem handled_timerFires (w : World) :
    handled w .timerFires =
      match w.timers with
      | [] => w
      | q :: rest =>
        { (w.setState fun app => { app with isLoading := false }) with
          timers := rest
          trace := (q, .setIsLoading false) :: w.trace } := by
  obtain ⟨app, m, st, qs, ts, tr⟩ := w
  cases ts <;> cases m <;> rfl

theorem handled_handleGender (w : World) (v : String) :
    handled w (.handleGender v) = w.setState fun app => { app with gender := v } := rfl

theorem handled_handleCountry (w : World) (v : String) :
    handled w (.handleCountry v) = w.setState fun app => { app with country := v } := rfl

theorem peopleGrid_records (list : List Person) (isLoading : Bool) :
    ∃ grid, peopleGrid (.records list) isLoading = some grid := by
  unfold peopleGrid
  simp only
  split
  · exact ⟨_, rfl⟩
  · split <;> exact ⟨_, rfl⟩

theorem render_eq_none (app : AppState) :
    render app = none ↔ app.people.axios = .undefined ∨ app.people.fetch = .undefined := by
  obtain ⟨⟨a, f⟩, g, c, l, lt, at1, ft⟩ := app
  cases a with
  | undefined => simp [render, peopleGrid]
  | records la =>
    obtain ⟨ga, ha⟩ := peopleGrid_records la l
    cases f with
    | undefined => simp [render, peopleGrid, ha]
    | records lf =>
      obtain ⟨gf, hf⟩ := peopleGrid_records lf l
      simp [render, ha, hf]

theorem rendered_of_render (before after : World) (h : render after.app ≠ none) :
    rendered before after = after := by
  simp [rendered, h]

theorem rendered_of_unmounted (before after : World) (h : after.mounted = false) :
    rendered before after = after := by
  simp [rendered, h]

theorem rendered_app (before after : World) : (rendered before after).app = after.app := by
  unfold rendered; split <;> rfl

theorem rendered_localStorage (before after : World) :
    (rendered before after).localStorage = after.localStorage := by
  unfold rendered; split <;> rfl

theorem rendered_queries (before after : World) :
    (rendered before after).queries = after.queries := by
  unfold rendered; split <;> rfl

theorem rendered_timers (before after : World) :
    (rendered before after).timers = after.timers := by
  unfold rendered; split <;> rfl

theorem rendered_trace (before after : World) :
    (rendered before after).trace = after.trace := by
  unfold rendered; split <;> rfl

theorem rendered_same (w : World) : rendered w w = w := by
  simp [rendered]

theorem accepted_queries_getElem? (w : World) (lt : String) (reqs : List Adapter)
    (x : Query) :
    ((accepted w w.queries.length lt reqs x).queries)[w.queries.length]? = some x :=
  getElem?_setAt_self _ _ _ (Nat.le_refl _)

theorem dispatch_ok (w : World) (e : Event) : ((dispatch w e).exec w).1 = .ok () := by
  rcases e with h | v | v | ⟨q, o, n, r⟩ | ⟨q, o⟩ | ⟨q, b, n, r⟩ | _
  · simp only [dispatch]
    split
    · cases h
      · simp only [findPeopleAxios_exec]
      · simp only [findPeopleFetch_exec]
      · simp only [compareRequests_exec]
    · rfl
  · rfl
  · rfl
  · simp only [dispatch]
    split
    · rw [findPeopleAxiosSettled_exec]
    · split
      · rw [compareAxiosSettled_exec]
      · rfl
    · rfl
  · simp only [dispatch]
    split
    · rw [findPeopleFetchResponded_exec]
    · split
      · rw [compareFetchResponded_exec]
      · rfl
    · rfl
  · simp only [dispatch]
    split
    · rw [findPeopleFetchBody_exec]
    · split
      · rw [compareFetchBody_exec]
      · rfl
    · rfl
  · simp only [dispatch]
    split <;> rfl

theorem step_app (w : World) (e : Event) : (step w e).app = (handled w e).app :=
  rendered_app _ _

theorem step_localStorage (w : World) (e : Event) :
    (step w e).localStorage = (handled w e).localStorage :=
  rendered_localStorage _ _

theorem step_queries (w : World) (e : Event) : (step w e).queries = (handled w e).queries :=
  rendered_queries _ _

theorem step_timers (w : World) (e : Event) : (step w e).timers = (handled w e).timers :=
  rendered_timers _ _

theorem step_trace (w : World) (e : Event) : (step w e).trace = (handled w e).trace :=
  rendered_trace _ _

theorem step_timingData (w : World) (e : Event) :
    (step w e).timingData = (handled w e).timingData := by
  simp only [World.timingData, step_app, step_localStorage]

theorem accepted_render (w : World) (q : Nat) (lt : String) (reqs : List Adapter)
    (x : Query) (hm : w.mounted = true) : render (accepted w q lt reqs x).app ≠ none := by
  rw [Ne, render_eq_none]
  simp [accepted, World.setState, hm, People.empty]

theorem step_invoke_findPeopleAxios (w : World) (hm : w.mounted = true)
    (h : w.app.isLoading = false) :
    step w (.invoke .findPeopleAxios) =
      accepted w w.queries.length "axios" [.axios] (.axios false) := by
  unfold step
  rw [handled_invoke_findPeopleAxios, if_pos ⟨hm, h⟩]
  exact rendered_of_render _ _ (accepted_render _ _ _ _ _ hm)

theorem step_invoke_findPeopleFetch (w : World) (hm : w.mounted = true)
    (h : w.app.isLoading = false) :
    step w (.invoke .findPeopleFetch) =
      accepted w w.queries.length "fetch" [.fetch] (.fetch .awaitingResponse) := by
  unfold step
  rw [handled_invoke_findPeopleFetch, if_pos ⟨hm, h⟩]
  exact rendered_of_render _ _ (accepted_render _ _ _ _ _ hm)

theorem step_invoke_compareRequests (w : World) (hm : w.mounted = true)
    (h : w.app.isLoading = false) :
    step w (.invoke .compareRequests) =
      accepted w w.queries.length "compare" [.fetch, .axios]
        (.compare Comparison.fresh) := by
  unfold step
  rw [handled_invoke_compareRequests, if_pos ⟨hm, h⟩]
  exact rendered_of_render _ _ (accepted_render _ _ _ _ _ hm)

theorem step_invoke_of_not (w : World) (handler : Handler)
    (h : ¬(w.mounted = true ∧ w.app.isLoading = false)) : step w (.invoke handler) = w := by
  unfold step
  cases handler
  · rw [handled_invoke_findPeopleAxios, if_neg h]; exact rendered_same w
  · rw [handled_invoke_findPeopleFetch, if_neg h]; exact rendered_same w
  · rw [handled_invoke_compareRequests, if_neg h]; exact rendered_same w

/-! ## Re-entrant invocations -/

/-- C2: in a state whose busy flag `isLoading` is true, invoking `findPeopleAxios`,
`findPeopleFetch` or `compareRequests` leaves the whole world as it was: `people`,
`loadingType`, `isLoading`, `axiosTime`, `fetchTime` and the other state cells, the store,
the table of queries (no request is issued), the queued timers (none is scheduled) and
the effect log. -/
theorem invoke_while_loading_noop (w : World) (handler : Handler)
    (h : w.app.isLoading = true) : step w (.invoke handler) = w := by
  unfold step
  have hn : ¬(w.mounted = true ∧ w.app.isLoading = false) := by
    rw [h]; simp
  cases handler
  · rw [handled_invoke_findPeopleAxios, if_neg hn]; simp [rendered]
  · rw [handled_invoke_findPeopleFetch, if_neg hn]; simp [rendered]
  · rw [handled_invoke_compareRequests, if_neg hn]; simp [rendered]

/-- C2 at a concrete input: while a comparison is running, invoking `findPeopleAxios`
changes nothing. -/
theorem invoke_while_loading_noop_witness :
    comparing.app.isLoading = true ∧
      step comparing (.invoke .findPeopleAxios) = comparing :=
  ⟨rfl, invoke_while_loading_noop comparing .findPeopleAxios rfl⟩

/-! ## The request URL -/

/-- C8: for every gender `g` and country `c` of the rendered state, the request URL is
`"https://randomuser.me/api/?results=12&gender=" ++ g ++ "&nat=" ++ c`: an accepted
`compareRequests` issues exactly two requests, first with axios and then with fetch, both
to that URL, and an accepted single-strategy handler issues its one request to it; on
the initial state (gender `""`, country `"US"`) the URL ends in
`results=12&gender=&nat=US`. A handler is accepted when `App` is on the page (mounted)
and the busy flag is down. -/
theorem request_url (w : World) (g c : String) (hg : w.app.gender = g)
    (hc : w.app.country = c) (hm : w.mounted = true) (h : w.app.isLoading = false) :
    (step w (.invoke .compareRequests)).trace =
        (w.queries.length,
            .request .fetch ("https://randomuser.me/api/?results=12&gender=" ++ g ++ "&nat=" ++ c))
          :: (w.queries.length,
            .request .axios ("https://randomuser.me/api/?results=12&gender=" ++ g ++ "&nat=" ++ c))
          :: (w.queries.length, .setPeople People.empty)
          :: (w.queries.length, .setLoadingType "compare")
          :: (w.queries.length, .setIsLoading true) :: w.trace ∧
      (step w (.invoke .findPeopleAxios)).trace =
        (w.queries.length,
            .request .axios ("https://randomuser.me/api/?results=12&gender=" ++ g ++ "&nat=" ++ c))
          :: (w.queries.length, .setPeople People.empty)
          :: (w.queries.length, .setLoadingType "axios")
          :: (w.queries.length, .setIsLoading true) :: w.trace ∧
      (step w (.invoke .findPeopleFetch)).trace =
        (w.queries.length,
            .request .fetch ("https://randomuser.me/api/?results=12&gender=" ++ g ++ "&nat=" ++ c))
          :: (w.queries.length, .setPeople People.empty)
          :: (w.queries.length, .setLoadingType "fetch")
          :: (w.queries.length, .setIsLoading true) :: w.trace ∧
      url g c = "https://randomuser.me/api/?results=12&gender=" ++ g ++ "&nat=" ++ c ∧
      ∀ st, url (init st).app.gender (init st).app.country =
        "https://randomuser.me/api/?" ++ "results=12&gender=&nat=US" := by
  rw [step_invoke_compareRequests w hm h, step_invoke_findPeopleAxios w hm h,
    step_invoke_findPeopleFetch w hm h]
  subst hg hc
  refine ⟨rfl, rfl, rfl, rfl, fun _ => ?_⟩
  show url "" "US" = _
  decide

/-- C8 at a concrete input: the effects of `compareRequests` on a fresh page. -/
theorem request_url_witness :
    (step (init emptyStore) (.invoke .compareRequests)).trace =
      [(0, .request .fetch "https://randomuser.me/api/?results=12&gender=&nat=US"),
       (0, .request .axios "https://randomuser.me/api/?results=12&gender=&nat=US"),
       (0, .setPeople People.empty), (0, .setLoadingType "compare"),
       (0, .setIsLoading true)] :=
  (request_url (init emptyStore) "" "US" rfl rfl rfl rfl).1.trans (by decide)

/-! ## Timings of a comparison -/

theorem accepted_timingData (w : World) (q : Nat) (lt : String) (reqs : List Adapter)
    (x : Query) : (accepted w q lt reqs x).timingData = w.timingData := by
  obtain ⟨app, m, st, qs, ts, tr⟩ := w
  cases m <;> rfl

theorem published_timingData (w : World) (q : Nat) (people : People) :
    (published w q people).timingData = w.timingData := by
  obtain ⟨app, m, st, qs, ts, tr⟩ := w
  cases m <;> rfl

theorem timed_refused_timingData (w : World) (q : Nat) (axios : Bool)
    (name key time message : String) :
    (timed w q axios name key time (.refused message)).timingData = w.timingData := rfl

theorem timed_accepted_localStorage (w : World) (q : Nat) (axios : Bool)
    (name key time : String) :
    (timed w q axios name key time .accepted).localStorage = setItem w.localStorage key time := by
  obtain ⟨app, m, st, qs, ts, tr⟩ := w
  cases m <;> rfl

theorem timed_axios_app (w : World) (q : Nat) (name key time : String) :
    (timed w q true name key time .accepted).app.axiosTime
        = (if w.mounted then time else w.app.axiosTime) ∧
      (timed w q true name key time .accepted).app.fetchTime = w.app.fetchTime := by
  obtain ⟨app, m, st, qs, ts, tr⟩ := w
  cases m <;> exact ⟨rfl, rfl⟩

theorem timed_fetch_app (w : World) (q : Nat) (name key time : String) :
    (timed w q false name key time .accepted).app.fetchTime
        = (if w.mounted then time else w.app.fetchTime) ∧
      (timed w q false name key time .accepted).app.axiosTime = w.app.axiosTime := by
  obtain ⟨app, m, st, qs, ts, tr⟩ := w
  cases m <;> exact ⟨rfl, rfl⟩

theorem step_axiosSettles_compare (w : World) (q : Nat) (c : Comparison) (o : AxiosOutcome)
    (n : Nat) (reply : StoreReply) (hq : w.queries[q]? = some (.compare c))
    (h : c.axiosPromise = .pending) :
    handled w (.axiosSettles q o n reply) =
      reacted
        (match o with
          | .rejected _ => w
          | .resolved _ => timed w q true "Axios" "axiosTime" (toFixed2 n) reply)
        q c { c with axiosPromise := Promise.settled (o.timedResults reply) } := by
  rw [handled_axiosSettles, hq]
  simp only [h, if_true, compareAxiosSettled_exec]

theorem step_bodyRead_compare (w : World) (q : Nat) (c : Comparison) (b : Body)
    (n : Nat) (reply : StoreReply) (hq : w.queries[q]? = some (.compare c))
    (h : c.fetchStage = .awaitingBody) :
    handled w (.bodyRead q b n reply) =
      reacted
        (match b with
          | .malformed _ => w
          | .parsed _ => timed w q false "Fetch" "fetchTime" (toFixed2 n) reply)
        q c
        { c with
          fetchStage := .settled, fetchPromise := Promise.settled (b.timedResults reply) } := by
  rw [handled_bodyRead, hq]
  simp only [h, if_true, compareFetchBody_exec]

theorem compare_axios_accepted_timing (w : World) (q : Nat) (c : Comparison) (n : Nat)
    (data : Data) (hq : w.queries[q]? = some (.compare c)) (h : c.axiosPromise = .pending) :
    (step w (.axiosSettles q (.resolved data) n .accepted)).timingData =
      (if w.mounted then toFixed2 n else w.app.axiosTime, w.app.fetchTime,
        setItem w.localStorage "axiosTime" (toFixed2 n)) := by
  rw [step_timingData, step_axiosSettles_compare w q c _ n _ hq h, reacted_timingData]
  simp only [World.timingData, timed_accepted_localStorage, timed_axios_app]

theorem compare_axios_refused_timing (w : World) (q : Nat) (c : Comparison) (n : Nat)
    (data : Data) (message : String) (hq : w.queries[q]? = some (.compare c))
    (h : c.axiosPromise = .pending) :
    (step w (.axiosSettles q (.resolved data) n (.refused message))).timingData
      = w.timingData := by
  rw [step_timingData, step_axiosSettles_compare w q c _ n _ hq h, reacted_timingData]
  rfl

theorem compare_axios_rejected_timing (w : World) (q : Nat) (c : Comparison) (n : Nat)
    (message : String) (reply : StoreReply) (hq : w.queries[q]? = some (.compare c))
    (h : c.axiosPromise = .pending) :
    (step w (.axiosSettles q (.rejected message) n reply)).timingData = w.timingData := by
  rw [step_timingData, step_axiosSettles_compare w q c _ n _ hq h, reacted_timingData]

theorem compare_fetchResponds_timing (w : World) (q : Nat) (c : Comparison)
    (outcome : FetchOutcome) (hq : w.queries[q]? = some (.compare c)) :
    (step w (.fetchResponds q outcome)).timingData = w.timingData := by
  rw [step_timingData, handled_fetchResponds, hq]
  simp only [compareFetchResponded_exec]
  split
  · split
    · rfl
    · exact reacted_timingData _ _ _ _
  · rfl

theorem compare_body_accepted_timing (w : World) (q : Nat) (c : Comparison) (n : Nat)
    (data : Data) (hq : w.queries[q]? = some (.compare c)) (h : c.fetchStage = .awaitingBody) :
    (step w (.bodyRead q (.parsed data) n .accepted)).timingData =
      (w.app.axiosTime, if w.mounted then toFixed2 n else w.app.fetchTime,
        setItem w.localStorage "fetchTime" (toFixed2 n)) := by
  rw [step_timingData, step_bodyRead_compare w q c _ n _ hq h, reacted_timingData]
  simp only [World.timingData, timed_accepted_localStorage, timed_fetch_app]

theorem compare_body_refused_timing (w : World) (q : Nat) (c : Comparison) (n : Nat)
    (data : Data) (message : String) (hq : w.queries[q]? = some (.compare c)) :
    (step w (.bodyRead q (.parsed data) n (.refused message))).timingData = w.timingData := by
  rw [step_timingData, handled_bodyRead, hq]
  simp only [compareFetchBody_exec]
  split
  · rw [reacted_timingData]; rfl
  · rfl

theorem compare_body_malformed_timing (w : World) (q : Nat) (c : Comparison) (n : Nat)
    (message : String) (reply : StoreReply) (hq : w.queries[q]? = some (.compare c)) :
    (step w (.bodyRead q (.malformed message) n reply)).timingData = w.timingData := by
  rw [step_timingData, handled_bodyRead, hq]
  simp only [compareFetchBody_exec]
  split
  · simp only [reacted_timingData]
  · rfl

theorem compare_axios_refused_promise (w : World) (q : Nat) (c : Comparison) (n : Nat)
    (data : Data) (message : String) (hq : w.queries[q]? = some (.compare c))
    (h : c.axiosPromise = .pending) :
    ∃ c1, (step w (.axiosSettles q (.resolved data) n (.refused message))).queries[q]?
        = some (.compare c1) ∧ c1.axiosPromise = .rejected message := by
  rw [step_queries, step_axiosSettles_compare w q c _ n _ hq h, reacted_queries]
  exact ⟨_, getElem?_setAt_self _ _ _ (Nat.le_of_lt (lt_length_of_getElem? hq)), rfl⟩

theorem compare_body_refused_promise (w : World) (q : Nat) (c : Comparison) (n : Nat)
    (data : Data) (message : String) (hq : w.queries[q]? = some (.compare c))
    (h : c.fetchStage = .awaitingBody) :
    ∃ c1, (step w (.bodyRead q (.parsed data) n (.refused message))).queries[q]?
        = some (.compare c1) ∧ c1.fetchPromise = .rejected message := by
  rw [step_queries, step_bodyRead_compare w q c _ n _ hq h, reacted_queries]
  exact ⟨_, getElem?_setAt_self _ _ _ (Nat.le_of_lt (lt_length_of_getElem? hq)), rfl⟩

/-- C5 as stated fails: in the comparison of a fresh page `axios.get` resolves with one
record, so the request of axios succeeds, but the store refuses the write
(`localStorage.setItem` throws, as it does at the quota): nothing is stored under
`axiosTime` and the cell `axiosTime` keeps the sentinel. -/
theorem compare_write_refused :
    (step comparing (.axiosSettles 0 (.resolved (.object (.records [alice]))) 1234
        (.refused "QuotaExceededError"))).localStorage "axiosTime" = none ∧
      (step comparing (.axiosSettles 0 (.resolved (.object (.records [alice]))) 1234
        (.refused "QuotaExceededError"))).app.axiosTime = "N/A" := by
  decide

/-- C5, amended: in `compareRequests` the timing of an adapter is stored by that adapter's
own settlement, whatever the other adapter's promise and `Promise.all` are (`c` is any
comparison found at `q`), provided the store accepts the write. When `axios.get` resolves
and `localStorage.setItem` returns, that step puts the elapsed time under `axiosTime` (the
other keys keep their values) and, `App` being mounted, in the cell `axiosTime`, and leaves
`fetchTime` alone (also when `res.data` is `null`: the time is stored before
`res.data.results` is read). When `setItem` throws, store and cells are unchanged and
`axiosPromise` rejects with that exception. When `axios.get` rejects, store and cells are
unchanged. For fetch, a response (of any status) or a failure of the transport changes
nothing, nor does a malformed body; a parsed body behaves as a resolved `axios.get` does,
with the key and the cell `fetchTime`. -/
theorem compare_timing_independent (w : World) (q : Nat) (c : Comparison) (n : Nat)
    (hq : w.queries[q]? = some (.compare c)) :
    (c.axiosPromise = .pending →
      (∀ data,
        (step w (.axiosSettles q (.resolved data) n .accepted)).localStorage "axiosTime"
            = some (toFixed2 n) ∧
          (∀ key, key ≠ "axiosTime" →
            (step w (.axiosSettles q (.resolved data) n .accepted)).localStorage key
              = w.localStorage key) ∧
          (w.mounted = true →
            (step w (.axiosSettles q (.resolved data) n .accepted)).app.axiosTime
              = toFixed2 n) ∧
          (step w (.axiosSettles q (.resolved data) n .accepted)).app.fetchTime
            = w.app.fetchTime) ∧
      (∀ data message,
        (step w (.axiosSettles q (.resolved data) n (.refused message))).timingData
            = w.timingData ∧
          ∃ c1, (step w (.axiosSettles q (.resolved data) n (.refused message))).queries[q]?
            = some (.compare c1) ∧ c1.axiosPromise = .rejected message) ∧
      (∀ message reply,
        (step w (.axiosSettles q (.rejected message) n reply)).timingData = w.timingData)) ∧
    (∀ outcome, (step w (.fetchResponds q outcome)).timingData = w.timingData) ∧
    (∀ message reply,
      (step w (.bodyRead q (.malformed message) n reply)).timingData = w.timingData) ∧
    (c.fetchStage = .awaitingBody →
      (∀ data,
        (step w (.bodyRead q (.parsed data) n .accepted)).localStorage "fetchTime"
            = some (toFixed2 n) ∧
          (∀ key, key ≠ "fetchTime" →
            (step w (.bodyRead q (.parsed data) n .accepted)).localStorage key
              = w.localStorage key) ∧
          (w.mounted = true →
            (step w (.bodyRead q (.parsed data) n .accepted)).app.fetchTime = toFixed2 n) ∧
          (step w (.bodyRead q (.parsed data) n .accepted)).app.axiosTime
            = w.app.axiosTime) ∧
      (∀ data message,
        (step w (.bodyRead q (.parsed data) n (.refused message))).timingData
            = w.timingData ∧
          ∃ c1, (step w (.bodyRead q (.parsed data) n (.refused message))).queries[q]?
            = some (.compare c1) ∧ c1.fetchPromise = .rejected message)) := by
  refine ⟨fun h => ⟨fun data => ?_, fun data message => ?_, fun message reply => ?_⟩,
    fun outcome => compare_fetchResponds_timing w q c outcome hq,
    fun message reply => compare_body_malformed_timing w q c n message reply hq,
    fun h => ⟨fun data => ?_, fun data message => ?_⟩⟩
  · have h1 := compare_axios_accepted_timing w q c n data hq h
    have h2 : (step w (.axiosSettles q (.resolved data) n .accepted)).localStorage
        = setItem w.localStorage "axiosTime" (toFixed2 n) := congrArg (fun t => t.2.2) h1
    have h3 : (step w (.axiosSettles q (.resolved data) n .accepted)).app.axiosTime
        = if w.mounted then toFixed2 n else w.app.axiosTime := congrArg (fun t => t.1) h1
    have h4 : (step w (.axiosSettles q (.resolved data) n .accepted)).app.fetchTime
        = w.app.fetchTime := congrArg (fun t => t.2.1) h1
    refine ⟨by rw [h2]; simp [setItem], fun key hk => by rw [h2]; simp [setItem, hk],
      fun hm => by rw [h3, hm]; rfl, h4⟩
  · exact ⟨compare_axios_refused_timing w q c n data message hq h,
      compare_axios_refused_promise w q c n data message hq h⟩
  · exact compare_axios_rejected_timing w q c n message reply hq h
  · have h1 := compare_body_accepted_timing w q c n data hq h
    have h2 : (step w (.bodyRead q (.parsed data) n .accepted)).localStorage
        = setItem w.localStorage "fetchTime" (toFixed2 n) := congrArg (fun t => t.2.2) h1
    have h3 : (step w (.bodyRead q (.parsed data) n .accepted)).app.fetchTime
        = if w.mounted then toFixed2 n else w.app.fetchTime := congrArg (fun t => t.2.1) h1
    have h4 : (step w (.bodyRead q (.parsed data) n .accepted)).app.axiosTime
        = w.app.axiosTime := congrArg (fun t => t.1) h1
    refine ⟨by rw [h2]; simp [setItem], fun key hk => by rw [h2]; simp [setItem, hk],
      fun hm => by rw [h3, hm]; rfl, h4⟩
  · exact ⟨compare_body_refused_timing w q c n data message hq,
      compare_body_refused_promise w q c n data message hq h⟩

/-- C5, amended, at a concrete input: in the comparison of a fresh page, fetch still
pending, axios resolves after 12.34 ms and the store accepts the write. -/
theorem compare_timing_independent_witness :
    toFixed2 1234 = "12.34" ∧
      (step comparing (.axiosSettles 0 (.resolved (.object (.records []))) 1234
        .accepted)).localStorage "axiosTime" = some (toFixed2 1234) ∧
      (step comparing (.axiosSettles 0 (.resolved (.object (.records []))) 1234
        .accepted)).app.axiosTime = toFixed2 1234 :=
  ⟨by decide,
    (((compare_timing_independent comparing 0 _ 1234 rfl).1 rfl).1 _).1,
    (((compare_timing_independent comparing 0 _ 1234 rfl).1 rfl).1 _).2.2.1 rfl⟩

/-! ## Timings at startup -/

/-- C9 as stated fails: the key `axiosTime` is present and holds the empty string, yet the
value loaded at startup is the sentinel `N/A`, not the stored string. -/
theorem startup_blank_entry :
    blankAxiosTime "axiosTime" = some "" ∧ (init blankAxiosTime).app.axiosTime = "N/A" := by
  decide

/-- C9, amended: at startup `axiosTime` is the string stored under `axiosTime` when that
string is not empty, and `N/A` when the key is absent or holds the empty string; the same
for `fetchTime`; and a time stored by a comparison (a `toFixed(2)` rendering, which is never
empty) is what the next startup loads. -/
theorem startup_timings (storage : String → Option String) (value : String) :
    (storage "axiosTime" = some value → value ≠ "" →
        (init storage).app.axiosTime = value) ∧
      (storage "axiosTime" = none ∨ storage "axiosTime" = some "" →
        (init storage).app.axiosTime = "N/A") ∧
      (storage "fetchTime" = some value → value ≠ "" →
        (init storage).app.fetchTime = value) ∧
      (storage "fetchTime" = none ∨ storage "fetchTime" = some "" →
        (init storage).app.fetchTime = "N/A") ∧
      (∀ w q c data n, w.queries[q]? = some (.compare c) → c.axiosPromise = .pending →
        (step w (.axiosSettles q (.resolved data) n .accepted)).localStorage "axiosTime"
            = some (toFixed2 n) ∧
          (init (step w (.axiosSettles q (.resolved data) n .accepted)).localStorage).app.axiosTime
            = toFixed2 n) ∧
      (∀ w q c data n, w.queries[q]? = some (.compare c) → c.fetchStage = .awaitingBody →
        (step w (.bodyRead q (.parsed data) n .accepted)).localStorage "fetchTime"
            = some (toFixed2 n) ∧
          (init (step w (.bodyRead q (.parsed data) n .accepted)).localStorage).app.fetchTime
            = toFixed2 n) := by
  refine ⟨fun h hne => ?_, fun h => ?_, fun h hne => ?_, fun h => ?_,
    fun w q c data n hq hp => ?_, fun w q c data n hq hp => ?_⟩
  · simp [init, getItemOr, h, hne]
  · rcases h with h | h <;> simp [init, getItemOr, h]
  · simp [init, getItemOr, h, hne]
  · rcases h with h | h <;> simp [init, getItemOr, h]
  · have h1 := compare_axios_accepted_timing w q c n data hq hp
    have h2 : (step w (.axiosSettles q (.resolved data) n .accepted)).localStorage =
        setItem w.localStorage "axiosTime" (toFixed2 n) := congrArg (fun t => t.2.2) h1
    rw [h2]
    exact ⟨by simp [setItem],
      getItemOr_setItem w.localStorage "axiosTime" (toFixed2 n) "N/A" (toFixed2_ne_empty n)⟩
  · have h1 := compare_body_accepted_timing w q c n data hq hp
    have h2 : (step w (.bodyRead q (.parsed data) n .accepted)).localStorage =
        setItem w.localStorage "fetchTime" (toFixed2 n) := congrArg (fun t => t.2.2) h1
    rw [h2]
    exact ⟨by simp [setItem],
      getItemOr_setItem w.localStorage "fetchTime" (toFixed2 n) "N/A" (toFixed2_ne_empty n)⟩

/-- C9, amended, at a concrete input: a store holding `12.34` under `axiosTime`. -/
theorem startup_timings_witness :
    (init (setItem emptyStore "axiosTime" "12.34")).app.axiosTime = "12.34" :=
  (startup_timings (setItem emptyStore "axiosTime" "12.34") "12.34").1 (by decide)
    (by decide)

/-! ## The single-strategy queries leave the timings alone -/

theorem setState_timingData_of (w : World) (update : AppState → AppState)
    (ha : ∀ app, (update app).axiosTime = app.axiosTime)
    (hf : ∀ app, (update app).fetchTime = app.fetchTime) :
    (w.setState update).timingData = w.timingData := by
  obtain ⟨app, m, st, qs, ts, tr⟩ := w
  cases m
  · rfl
  · simp only [World.setState, World.timingData, if_true, ha, hf]

theorem timingData_step (w : World) (e : Event) :
    (step w e).timingData = w.timingData ∨
      ∃ q c, w.queries[q]? = some (.compare c) ∧
        ((∃ data n, e = .axiosSettles q (.resolved data) n .accepted ∧
            c.axiosPromise = .pending) ∨
         (∃ data n, e = .bodyRead q (.parsed data) n .accepted ∧
            c.fetchStage = .awaitingBody)) := by
  rw [step_timingData]
  rcases e with h | v | v | ⟨q, o, n, r⟩ | ⟨q, o⟩ | ⟨q, b, n, r⟩ | _
  · left
    cases h
    · rw [handled_invoke_findPeopleAxios]; split
      · exact accepted_timingData _ _ _ _ _
      · rfl
    · rw [handled_invoke_findPeopleFetch]; split
      · exact accepted_timingData _ _ _ _ _
      · rfl
    · rw [handled_invoke_compareRequests]; split
      · exact accepted_timingData _ _ _ _ _
      · rfl
  · left; exact setState_timingData_of _ _ (fun _ => rfl) (fun _ => rfl)
  · left; exact setState_timingData_of _ _ (fun _ => rfl) (fun _ => rfl)
  · rw [handled_axiosSettles]
    split
    · left; rw [findPeopleAxiosSettled_exec]; split
      · exact published_timingData _ _ _
      · rfl
    · next c hq =>
      split
      · next hp =>
        rw [compareAxiosSettled_exec, reacted_timingData]
        rcases o with m | data
        · left; rfl
        · rcases r with _ | m
          · right; exact ⟨q, c, hq, Or.inl ⟨data, n, rfl, hp⟩⟩
          · left; rfl
      · left; rfl
    · left; rfl
  · left
    rw [handled_fetchResponds]
    split
    · rw [findPeopleFetchResponded_exec]; split <;> rfl
    · split
      · rw [compareFetchResponded_exec]
        split
        · rfl
        · exact reacted_timingData _ _ _ _
      · rfl
    · rfl
  · rw [handled_bodyRead]
    split
    · left; rw [findPeopleFetchBody_exec]; split
      · exact published_timingData _ _ _
      · rfl
    · next c hq =>
      split
      · next hp =>
        rw [compareFetchBody_exec, reacted_timingData]
        rcases b with m | data
        · left; rfl
        · rcases r with _ | m
          · right; exact ⟨q, c, hq, Or.inr ⟨data, n, rfl, hp⟩⟩
          · left; rfl
      · left; rfl
    · left; rfl
  · left
    rw [handled_timerFires]
    split
    · rfl
    · exact setState_timingData_of _ _ (fun _ => rfl) (fun _ => rfl)

theorem setState_queries (w : World) (update : AppState → AppState) :
    (w.setState update).queries = w.queries := by
  obtain ⟨app, m, st, qs, ts, tr⟩ := w
  cases m <;> rfl

theorem published_queries (w : World) (q : Nat) (people : People) :
    (published w q people).queries = w.queries := by
  obtain ⟨app, m, st, qs, ts, tr⟩ := w
  cases m <;> rfl

theorem accepted_queries (w : World) (q : Nat) (lt : String) (reqs : List Adapter)
    (x : Query) : (accepted w q lt reqs x).queries = setAt w.queries q x := by
  obtain ⟨app, m, st, qs, ts, tr⟩ := w
  cases m <;> rfl

theorem step_queries_kind (w : World) (e : Event) (he : ∀ h, e ≠ .invoke h) (i : Nat) :
    (((step w e).queries)[i]?).map Query.kind = (w.queries[i]?).map Query.kind := by
  rw [step_queries]
  rcases e with h | v | v | ⟨q, o, n, r⟩ | ⟨q, o⟩ | ⟨q, b, n, r⟩ | _
  · exact absurd rfl (he h)
  · rw [handled_handleGender, setState_queries]
  · rw [handled_handleCountry, setState_queries]
  · rw [handled_axiosSettles]
    split
    · next hq =>
      rw [findPeopleAxiosSettled_exec]
      split
      · rw [published_queries]; exact kind_setAt _ _ _ _ _ hq rfl
      · exact kind_setAt _ _ _ _ _ hq rfl
    · next c hq =>
      split
      · rw [compareAxiosSettled_exec, reacted_queries]
        rcases o with m | d
        · exact kind_setAt _ _ _ _ _ hq rfl
        · simp only [timed_queries]; exact kind_setAt _ _ _ _ _ hq rfl
      · rfl
    · rfl
  · rw [handled_fetchResponds]
    split
    · next hq =>
      rw [findPeopleFetchResponded_exec]
      split <;> exact kind_setAt _ _ _ _ _ hq rfl
    · next c hq =>
      split
      · rw [compareFetchResponded_exec]
        split
        · exact kind_setAt _ _ _ _ _ hq rfl
        · rw [reacted_queries]; exact kind_setAt _ _ _ _ _ hq rfl
      · rfl
    · rfl
  · rw [handled_bodyRead]
    split
    · next hq =>
      rw [findPeopleFetchBody_exec]
      split
      · rw [published_queries]; exact kind_setAt _ _ _ _ _ hq rfl
      · exact kind_setAt _ _ _ _ _ hq rfl
    · next c hq =>
      split
      · rw [compareFetchBody_exec, reacted_queries]
        rcases b with m | d
        · exact kind_setAt _ _ _ _ _ hq rfl
        · simp only [timed_queries]; exact kind_setAt _ _ _ _ _ hq rfl
      · rfl
    · rfl
  · rw [handled_timerFires]
    split
    · rfl
    · rw [show ∀ (w1 : World) (ts : List Nat) (tr : List (Nat × Effect)),
        ({ w1 with timers := ts, trace := tr } : World).queries = w1.queries from
        fun _ _ _ => rfl, setState_queries]

theorem step_timingData_of_kind (w : World) (e : Event)
    (h : ∀ q, e.target = some q → (w.queries[q]?).map Query.kind ≠ some .compareRequests) :
    (step w e).timingData = w.timingData := by
  rcases timingData_step w e with h1 | ⟨q, c, hq, h2⟩
  · exact h1
  · exfalso
    have ht : e.target = some q := by
      rcases h2 with ⟨d, n, rfl, _⟩ | ⟨d, n, rfl, _⟩ <;> rfl
    exact h q ht (by rw [hq]; rfl)

theorem invoke_queries_kind (w : World) (handler : Handler) :
    (((step w (.invoke handler)).queries)[w.queries.length]?).map Query.kind = none ∨
      (((step w (.invoke handler)).queries)[w.queries.length]?).map Query.kind
        = some handler := by
  by_cases h : w.mounted = true ∧ w.app.isLoading = false
  · right
    cases handler
    · rw [step_invoke_findPeopleAxios w h.1 h.2, accepted_queries_getElem?]; rfl
    · rw [step_invoke_findPeopleFetch w h.1 h.2, accepted_queries_getElem?]; rfl
    · rw [step_invoke_compareRequests w h.1 h.2, accepted_queries_getElem?]; rfl
  · left
    rw [step_invoke_of_not w handler h]
    simp

/-- C10: a whole run of `findPeopleAxios` (invocation, settlement with any outcome, timer)
and a whole run of `findPeopleFetch` (invocation, response, body, timer) leave the cells
`axiosTime` and `fetchTime` and the store as they were; and every step that changes any of
them is the settlement of a request of a `compareRequests` query (a resolved `axios.get`
or a parsed body, with the write accepted by the store), so only `compareRequests` writes
a timing. -/
theorem single_strategy_timing_frame (w : World) (e : Event) :
    (∀ o n r, (run w [.invoke .findPeopleAxios, .axiosSettles w.queries.length o n r,
        .timerFires]).timingData = w.timingData) ∧
    (∀ o b n r, (run w [.invoke .findPeopleFetch, .fetchResponds w.queries.length o,
        .bodyRead w.queries.length b n r, .timerFires]).timingData = w.timingData) ∧
    ((step w e).timingData = w.timingData ∨
      ∃ q c, w.queries[q]? = some (.compare c) ∧
        ((∃ data n, e = .axiosSettles q (.resolved data) n .accepted ∧
            c.axiosPromise = .pending) ∨
         (∃ data n, e = .bodyRead q (.parsed data) n .accepted ∧
            c.fetchStage = .awaitingBody))) := by
  refine ⟨fun o n r => ?_, fun o b n r => ?_, timingData_step w e⟩
  · have h0 := step_timingData_of_kind w (.invoke .findPeopleAxios) (fun q hq => by cases hq)
    have k1 := invoke_queries_kind w .findPeopleAxios
    have h1 := step_timingData_of_kind (step w (.invoke .findPeopleAxios))
      (.axiosSettles w.queries.length o n r) (fun q hq => by
        cases hq
        rcases k1 with k | k <;> rw [k] <;> simp)
    have h2 := step_timingData_of_kind
      (step (step w (.invoke .findPeopleAxios)) (.axiosSettles w.queries.length o n r))
      .timerFires (fun q hq => by cases hq)
    show (step (step (step w _) _) _).timingData = _
    rw [h2, h1, h0]
  · have h0 := step_timingData_of_kind w (.invoke .findPeopleFetch) (fun q hq => by cases hq)
    have k1 := invoke_queries_kind w .findPeopleFetch
    have h1 := step_timingData_of_kind (step w (.invoke .findPeopleFetch))
      (.fetchResponds w.queries.length o) (fun q hq => by
        cases hq
        rcases k1 with k | k <;> rw [k] <;> simp)
    have k2 := step_queries_kind (step w (.invoke .findPeopleFetch))
      (.fetchResponds w.queries.length o) (fun h => by simp) w.queries.length
    have h2 := step_timingData_of_kind
      (step (step w (.invoke .findPeopleFetch)) (.fetchResponds w.queries.length o))
      (.bodyRead w.queries.length b n r) (fun q hq => by
        cases hq
        rw [k2]
        rcases k1 with k | k <;> rw [k] <;> simp)
    have h3 := step_timingData_of_kind
      (step (step (step w (.invoke .findPeopleFetch)) (.fetchResponds w.queries.length o))
        (.bodyRead w.queries.length b n r))
      .timerFires (fun q hq => by cases hq)
    show (step (step (step (step w _) _) _) _).timingData = _
    rw [h3, h2, h1, h0]

/-! ## What the busy flag excludes -/

theorem published_timers (w : World) (q : Nat) (people : People) :
    (published w q people).timers = w.timers ++ [q] := by
  obtain ⟨app, m, st, qs, ts, tr⟩ := w
  cases m <;> rfl

theorem published_isLoading (w : World) (q : Nat) (people : People) :
    (published w q people).app.isLoading = w.app.isLoading := by
  obtain ⟨app, m, st, qs, ts, tr⟩ := w
  cases m <;> rfl

theorem timed_timers (w : World) (q : Nat) (axios : Bool) (name key time : String)
    (reply : StoreReply) : (timed w q axios name key time reply).timers = w.timers := by
  obtain ⟨app, m, st, qs, ts, tr⟩ := w
  cases reply <;> cases m <;> rfl

theorem timed_isLoading (w : World) (q : Nat) (axios : Bool) (name key time : String)
    (reply : StoreReply) :
    (timed w q axios name key time reply).app.isLoading = w.app.isLoading := by
  obtain ⟨app, m, st, qs, ts, tr⟩ := w
  cases reply <;> cases m <;> cases axios <;> rfl

theorem exclusive_keep (w w1 : World) (hs : w1.suspended = w.suspended)
    (ht : w1.timers = w.timers) (hl : w1.app.isLoading = w.app.isLoading)
    (h : Exclusive w) : Exclusive w1 := by
  unfold Exclusive at *
  rw [hs, ht, hl]
  exact h

theorem exclusive_finish (w w1 : World) (q : Nat) (hs : w.suspended = w1.suspended + 1)
    (ht : w1.timers = w.timers ++ [q]) (hl : w1.app.isLoading = w.app.isLoading)
    (h : Exclusive w) : Exclusive w1 := by
  unfold Exclusive at *
  rcases h with ⟨h0, _, _⟩ | ⟨h1, h2, h3⟩
  · omega
  · left
    rw [ht, hl, h3, h2]
    refine ⟨by omega, by simp, by simp⟩

theorem exclusive_start (w w1 : World) (hs : w1.suspended = w.suspended + 1)
    (ht : w1.timers = w.timers) (hl : w.app.isLoading = false)
    (hl1 : w1.app.isLoading = true) (h : Exclusive w) : Exclusive w1 := by
  unfold Exclusive at *
  rcases h with ⟨h0, _, h2⟩ | ⟨_, h2, _⟩
  · right
    exact ⟨by omega, hl1, by rw [ht]; exact h2 hl⟩
  · rw [hl] at h2; cases h2

theorem exclusive_fire (w w1 : World) (q : Nat) (rest : List Nat)
    (hs : w1.suspended = w.suspended) (ht : w.timers = q :: rest) (ht1 : w1.timers = rest)
    (h : Exclusive w) : Exclusive w1 := by
  unfold Exclusive at *
  rcases h with ⟨h0, h1, _⟩ | ⟨_, _, h3⟩
  · left
    rw [ht] at h1
    have hr : rest = [] := by
      cases rest with
      | nil => rfl
      | cons a l => simp at h1
    rw [hs, ht1, hr]
    exact ⟨h0, by simp, fun _ => rfl⟩
  · rw [ht] at h3; cases h3

theorem exclusive_reacted (w : World) (q : Nat) (c c1 : Comparison)
    (hq : w.queries[q]? = some (.compare c)) (hall : c1.all = c.all)
    (h : Exclusive w) : Exclusive (reacted w q c c1) := by
  have hsum := sum_setAt Query.suspended (.compare { c1 with all := c1.join })
    (.compare c) w.queries q hq
  have hj : c.all ≠ .pending → c1.join = c.all := by
    intro hne
    unfold Comparison.join
    rw [hall]
    revert hne
    cases c.all <;> simp
  unfold reacted
  split
  · next hp =>
    split
    · next hjoin =>
      refine exclusive_keep w _ ?_ rfl rfl h
      simp only [World.suspended, Query.suspended, hjoin, hp, if_true] at hsum ⊢
      omega
    · next a f hjoin =>
      refine exclusive_finish w _ q ?_ (published_timers _ _ _) (published_isLoading _ _ _) h
      simp only [World.suspended, Query.suspended, hjoin, hp, if_true,
        published_queries] at hsum ⊢
      simp at hsum
      omega
    · next m hjoin =>
      refine exclusive_finish w _ q ?_ rfl rfl h
      simp only [World.suspended, Query.suspended, hjoin, hp, if_true, failed] at hsum ⊢
      simp at hsum
      omega
  · next hp =>
    refine exclusive_keep w _ ?_ rfl rfl h
    simp only [World.suspended, Query.suspended, hj hp, hp, if_false] at hsum ⊢
    omega

theorem exclusive_set (w : World) (q : Nat) (x y : Query)
    (hq : w.queries[q]? = some y) (hk : x.suspended = y.suspended) (h : Exclusive w) :
    Exclusive { w with queries := setAt w.queries q x } := by
  refine exclusive_keep w _ ?_ rfl rfl h
  have := sum_setAt Query.suspended x y w.queries q hq
  simp only [World.suspended]
  omega

theorem exclusive_failed (w : World) (q : Nat) (x y : Query) (label message : String)
    (hq : w.queries[q]? = some y) (hx : x.suspended = 0) (hy : y.suspended = 1)
    (h : Exclusive w) :
    Exclusive (failed { w with queries := setAt w.queries q x } q label message) := by
  refine exclusive_finish w _ q ?_ rfl rfl h
  have := sum_setAt Query.suspended x y w.queries q hq
  simp only [World.suspended, failed]
  omega

theorem exclusive_published (w : World) (q : Nat) (x y : Query) (people : People)
    (hq : w.queries[q]? = some y) (hx : x.suspended = 0) (hy : y.suspended = 1)
    (h : Exclusive w) :
    Exclusive (published { w with queries := setAt w.queries q x } q people) := by
  refine exclusive_finish w _ q ?_ (published_timers _ _ _) (published_isLoading _ _ _) h
  have := sum_setAt Query.suspended x y w.queries q hq
  simp only [World.suspended, published_queries]
  omega

theorem exclusive_accepted (w : World) (loadingType : String) (reqs : List Adapter)
    (x : Query) (hx : x.suspended = 1) (hm : w.mounted = true)
    (hl : w.app.isLoading = false) (h : Exclusive w) :
    Exclusive (accepted w w.queries.length loadingType reqs x) := by
  obtain ⟨app, m, st, qs, ts, tr⟩ := w
  simp only at hm
  subst hm
  refine exclusive_start ⟨app, true, st, qs, ts, tr⟩ _ ?_ rfl hl rfl h
  simp only [World.suspended, accepted, World.setState, if_true]
  rw [sum_setAt_length, hx]

theorem exclusive_timed (w : World) (q : Nat) (axios : Bool) (name key time : String)
    (reply : StoreReply) (h : Exclusive w) :
    Exclusive (timed w q axios name key time reply) := by
  refine exclusive_keep w _ ?_ (timed_timers _ _ _ _ _ _ _) (timed_isLoading _ _ _ _ _ _ _) h
  simp only [World.suspended, timed_queries]

theorem exclusive_setState (w : World) (update : AppState → AppState)
    (hl : ∀ app, (update app).isLoading = app.isLoading) (h : Exclusive w) :
    Exclusive (w.setState update) := by
  obtain ⟨app, m, st, qs, ts, tr⟩ := w
  cases m
  · exact h
  · exact exclusive_keep ⟨app, true, st, qs, ts, tr⟩ _ rfl rfl (hl app) h

theorem exclusive_handled (w : World) (e : Event) (h : Exclusive w) :
    Exclusive (handled w e) := by
  rcases e with hd | v | v | ⟨q, o, n, r⟩ | ⟨q, o⟩ | ⟨q, b, n, r⟩ | _
  · cases hd
    · rw [handled_invoke_findPeopleAxios]
      split
      · next hl => exact exclusive_accepted _ _ _ _ rfl hl.1 hl.2 h
      · exact h
    · rw [handled_invoke_findPeopleFetch]
      split
      · next hl => exact exclusive_accepted _ _ _ _ rfl hl.1 hl.2 h
      · exact h
    · rw [handled_invoke_compareRequests]
      split
      · next hl => exact exclusive_accepted _ _ _ _ rfl hl.1 hl.2 h
      · exact h
  · exact exclusive_setState _ _ (fun _ => rfl) h
  · exact exclusive_setState _ _ (fun _ => rfl) h
  · rw [handled_axiosSettles]
    split
    · next hq =>
      rw [findPeopleAxiosSettled_exec]
      split
      · exact exclusive_published _ _ _ _ _ hq rfl rfl h
      · exact exclusive_failed _ _ _ _ _ _ hq rfl rfl h
    · next c hq =>
      split
      · rw [compareAxiosSettled_exec]
        rcases o with m | d
        · exact exclusive_reacted _ _ _ _ hq rfl h
        · exact exclusive_reacted _ _ _ _ (by rw [timed_queries]; exact hq) rfl
            (exclusive_timed _ _ _ _ _ _ _ h)
      · exact h
    · exact h
  · rw [handled_fetchResponds]
    split
    · next hq =>
      rw [findPeopleFetchResponded_exec]
      split
      · exact exclusive_set _ _ _ _ hq rfl h
      · exact exclusive_failed _ _ _ _ _ _ hq rfl rfl h
    · next c hq =>
      split
      · rw [compareFetchResponded_exec]
        split
        · exact exclusive_set _ _ _ _ hq rfl h
        · exact exclusive_reacted _ _ _ _ hq rfl h
      · exact h
    · exact h
  · rw [handled_bodyRead]
    split
    · next hq =>
      rw [findPeopleFetchBody_exec]
      split
      · exact exclusive_published _ _ _ _ _ hq rfl rfl h
      · exact exclusive_failed _ _ _ _ _ _ hq rfl rfl h
    · next c hq =>
      split
      · rw [compareFetchBody_exec]
        rcases b with m | d
        · exact exclusive_reacted _ _ _ _ hq rfl h
        · exact exclusive_reacted _ _ _ _ (by rw [timed_queries]; exact hq) rfl
            (exclusive_timed _ _ _ _ _ _ _ h)
      · exact h
    · exact h
  · rw [handled_timerFires]
    split
    · exact h
    · next q rest ht =>
      refine exclusive_fire w _ q rest ?_ ht rfl h
      simp only [World.suspended]
      rw [show ∀ (w1 : World) (ts : List Nat) (tr : List (Nat × Effect)),
        ({ w1 with timers := ts, trace := tr } : World).queries = w1.queries from
        fun _ _ _ => rfl, setState_queries]

theorem exclusive_step (w : World) (e : Event) (h : Exclusive w) : Exclusive (step w e) :=
  exclusive_keep (handled w e) _ (by simp only [World.suspended, step_queries])
    (step_timers w e) (by rw [step_app]) (exclusive_handled w e h)

theorem exclusive_run (events : List Event) :
    ∀ w : World, Exclusive w → Exclusive (run w events) := by
  induction events with
  | nil => intro w h; exact h
  | cons e rest ih => intro w h; exact ih (step w e) (exclusive_step w e h)

theorem exclusive_init (storage : String → Option String) : Exclusive (init storage) :=
  Or.inl ⟨rfl, Nat.zero_le _, fun _ => rfl⟩

/-- At the level of handlers the busy flag does exclude: in every state reached from the
first render, when `isLoading` is false no handler is suspended at an `await`, so a
handler is accepted only when no earlier handler is still running. -/
theorem handlers_exclusive (storage : String → Option String) (events : List Event)
    (h : (run (init storage) events).app.isLoading = false) :
    (run (init storage) events).suspended = 0 := by
  rcases exclusive_run events _ (exclusive_init storage) with ⟨h0, _, _⟩ | ⟨_, h2, _⟩
  · exact h0
  · rw [h] at h2; cases h2

theorem noCompare_step (w : World) (e : Event) (he : e ≠ .invoke .compareRequests)
    (h : ∀ (i : Nat) (c : Comparison), w.queries[i]? ≠ some (Query.compare c)) :
    ∀ (i : Nat) (c : Comparison), (step w e).queries[i]? ≠ some (Query.compare c) := by
  intro i c hi
  by_cases hinv : ∃ handler, e = .invoke handler
  · obtain ⟨handler, rfl⟩ := hinv
    have hq : (step w (.invoke handler)).queries = w.queries ∨
        ∃ x, x.kind ≠ .compareRequests ∧
          (step w (.invoke handler)).queries = w.queries ++ [x] := by
      by_cases hc : w.mounted = true ∧ w.app.isLoading = false
      · right
        cases handler
        · rw [step_invoke_findPeopleAxios w hc.1 hc.2, accepted_queries]
          exact ⟨_, by simp [Query.kind], setAt_length _ _⟩
        · rw [step_invoke_findPeopleFetch w hc.1 hc.2, accepted_queries]
          exact ⟨_, by simp [Query.kind], setAt_length _ _⟩
        · exact absurd rfl he
      · left
        rw [step_invoke_of_not w handler hc]
    rcases hq with hq | ⟨x, hx, hq⟩
    · rw [hq] at hi; exact h i c hi
    · rw [hq] at hi
      rcases Nat.lt_or_ge i w.queries.length with hlt | hge
      · rw [List.getElem?_append_left hlt] at hi
        exact h i c hi
      · rw [List.getElem?_append_right hge] at hi
        cases hk : i - w.queries.length with
        | zero =>
          rw [hk] at hi
          simp only [List.getElem?_cons_zero, Option.some.injEq] at hi
          subst hi
          exact hx rfl
        | succ k =>
          rw [hk] at hi
          simp at hi
  · have hk := step_queries_kind w e (fun handler hh => hinv ⟨handler, hh⟩) i
    rw [hi] at hk
    cases hw : w.queries[i]? with
    | none => rw [hw] at hk; simp at hk
    | some y =>
      rw [hw] at hk
      cases y with
      | axios s => simp [Query.kind] at hk
      | fetch s => simp [Query.kind] at hk
      | compare c1 => exact h i c1 hw

theorem outstanding_eq_suspended :
    ∀ qs : List Query, (∀ (i : Nat) (c : Comparison), qs[i]? ≠ some (Query.compare c)) →
      (qs.map Query.outstanding).sum = (qs.map Query.suspended).sum := by
  intro qs
  induction qs with
  | nil => intro _; rfl
  | cons x qs ih =>
    intro h
    have ht := ih (fun i c => by simpa using h (i + 1) c)
    cases x with
    | axios s => simp [Query.outstanding, Query.suspended, ht]
    | fetch s => simp [Query.outstanding, Query.suspended, ht]
    | compare c => exact absurd (by simp) (h 0 c)

theorem noCompare_run (events : List Event) :
    ∀ w : World, (∀ e ∈ events, e ≠ .invoke .compareRequests) →
      (∀ (i : Nat) (c : Comparison), w.queries[i]? ≠ some (Query.compare c)) →
      ∀ (i : Nat) (c : Comparison), (run w events).queries[i]? ≠ some (Query.compare c) := by
  induction events with
  | nil => intro w _ h; exact h
  | cons e rest ih =>
    intro w hev h
    exact ih (step w e) (fun e' he' => hev e' (List.mem_cons_of_mem _ he'))
      (noCompare_step w e (hev e (List.mem_cons_self _ _)) h)

/-- The single-strategy handlers keep the requests apart: in every state reached from the
first render without an invocation of `compareRequests`, when `isLoading` is false no
request is outstanding, so a query is accepted only when every earlier request has
settled. -/
theorem single_strategy_exclusive (storage : String → Option String) (events : List Event)
    (hev : ∀ e ∈ events, e ≠ .invoke .compareRequests)
    (h : (run (init storage) events).app.isLoading = false) :
    (run (init storage) events).outstanding = 0 := by
  have hn := noCompare_run events (init storage) hev (fun i c hi => by simp [init] at hi)
  have hs := handlers_exclusive storage events h
  simp only [World.outstanding, World.suspended] at hs ⊢
  rw [outstanding_eq_suspended _ hn]
  exact hs

/-- C1, which the code breaks: on a fresh page `compareRequests` is invoked, its axios
request fails while its fetch request is still pending (`Promise.all` rejects at once and
the `finally` block sets the timer), and the timer fires. The busy flag is then down with
one request outstanding, and `findPeopleAxios` is accepted: two requests, of two queries,
are in flight. -/
theorem compareRequests_overlap :
    halfSettled.app.isLoading = false ∧ halfSettled.outstanding = 1 ∧
      halfSettled.queries.map Query.outstanding = [1] ∧
      (step halfSettled (.invoke .findPeopleAxios)).queries.map Query.outstanding = [1, 1] ∧
      (step halfSettled (.invoke .findPeopleAxios)).outstanding = 2 := by
  decide

/-! ## Outcomes of a single-strategy query -/

theorem accepted_mounted (w : World) (q : Nat) (lt : String) (reqs : List Adapter)
    (x : Query) : (accepted w q lt reqs x).mounted = w.mounted := by
  obtain ⟨app, m, st, qs, ts, tr⟩ := w
  cases m <;> rfl

theorem accepted_people (w : World) (q : Nat) (lt : String) (reqs : List Adapter)
    (x : Query) (hm : w.mounted = true) :
    (accepted w q lt reqs x).app.people = People.empty := by
  obtain ⟨app, m, st, qs, ts, tr⟩ := w
  simp only at hm
  subst hm
  rfl

theorem published_mounted (w : World) (q : Nat) (people : People) :
    (published w q people).mounted = w.mounted := by
  obtain ⟨app, m, st, qs, ts, tr⟩ := w
  cases m <;> rfl

theorem published_people (w : World) (q : Nat) (people : People) (hm : w.mounted = true) :
    (published w q people).app.people = people := by
  obtain ⟨app, m, st, qs, ts, tr⟩ := w
  simp only at hm
  subst hm
  rfl

theorem rendered_of_people (before after : World) (a f : List Person)
    (h : after.app.people = { axios := .records a, fetch := .records f }) :
    rendered before after = after := by
  refine rendered_of_render _ _ ?_
  rw [Ne, render_eq_none, h]
  simp

theorem step_findPeopleAxiosSettled (w : World) (q : Nat) (o : AxiosOutcome) (n : Nat)
    (r : StoreReply) (hq : w.queries[q]? = some (.axios false))
    (hp : w.app.people = People.empty) (hdef : o.results ≠ .ok .undefined) :
    step w (.axiosSettles q o n r) =
      match o.results with
      | .ok results =>
        published { w with queries := setAt w.queries q (.axios true) } q
          { axios := results, fetch := .records [] }
      | .error message =>
        failed { w with queries := setAt w.queries q (.axios true) } q
          "Error en Axios: " message := by
  unfold step
  rw [handled_axiosSettles, hq]
  simp only [findPeopleAxiosSettled_exec]
  rw [hp]
  cases hr : o.results with
  | error m => exact rendered_of_people _ _ [] [] hp
  | ok res =>
    cases res with
    | undefined => exact absurd hr hdef
    | records list =>
      obtain ⟨app, m, st, qs, ts, tr⟩ := w
      cases m
      · exact rendered_of_unmounted _ _ rfl
      · exact rendered_of_people _ _ list [] rfl

theorem step_findPeopleFetchResponded (w : World) (q : Nat) (o : FetchOutcome)
    (hq : w.queries[q]? = some (.fetch .awaitingResponse))
    (hp : w.app.people = People.empty) :
    step w (.fetchResponds q o) =
      match o.failure with
      | none => { w with queries := setAt w.queries q (.fetch .awaitingBody) }
      | some message =>
        failed { w with queries := setAt w.queries q (.fetch .settled) } q
          "Error en Fetch: " message := by
  unfold step
  rw [handled_fetchResponds, hq]
  simp only [findPeopleFetchResponded_exec]
  cases o.failure <;> exact rendered_of_people _ _ [] [] hp

theorem step_findPeopleFetchBody (w : World) (q : Nat) (b : Body) (n : Nat)
    (r : StoreReply) (hq : w.queries[q]? = some (.fetch .awaitingBody))
    (hp : w.app.people = People.empty) (hdef : b.results ≠ .ok .undefined) :
    step w (.bodyRead q b n r) =
      match b.results with
      | .ok results =>
        published { w with queries := setAt w.queries q (.fetch .settled) } q
          { axios := .records [], fetch := results }
      | .error message =>
        failed { w with queries := setAt w.queries q (.fetch .settled) } q
          "Error en Fetch: " message := by
  unfold step
  rw [handled_bodyRead, hq]
  simp only [findPeopleFetchBody_exec]
  rw [hp]
  cases hr : b.results with
  | error m => exact rendered_of_people _ _ [] [] hp
  | ok res =>
    cases res with
    | undefined => exact absurd hr hdef
    | records list =>
      obtain ⟨app, m, st, qs, ts, tr⟩ := w
      cases m
      · exact rendered_of_unmounted _ _ rfl
      · exact rendered_of_people _ _ [] list rfl

theorem step_bodyRead_of_settled (w : World) (q : Nat) (b : Body) (n : Nat)
    (r : StoreReply) (hq : w.queries[q]? = some (.fetch .settled)) :
    step w (.bodyRead q b n r) = w := by
  unfold step
  rw [handled_bodyRead, hq]
  exact rendered_same w

/-- C7 as stated fails: the API answers `findPeopleAxios` with an empty `results` list. The
field `people.axios` is set to the empty list, not to a non-empty one, and no error is
logged: neither of the two outcomes of the claim. -/
theorem findPeopleAxios_empty_results :
    (run (init emptyStore) [.invoke .findPeopleAxios,
        .axiosSettles 0 (.resolved (.object (.records []))) 0 .accepted]).app.people.axios
        = .records [] ∧
      loggedErrors (run (init emptyStore) [.invoke .findPeopleAxios,
        .axiosSettles 0 (.resolved (.object (.records []))) 0 .accepted]).trace = [] := by
  decide

/-- A response body without a `results` property is a separate matter: `findPeopleAxios`
gives `undefined` to `setPeople`, and the render that follows reads
`people.axios.length`, throws and takes `App` off the page. -/
theorem findPeopleAxios_missing_results :
    (run (init emptyStore) [.invoke .findPeopleAxios,
        .axiosSettles 0 (.resolved (.object .undefined)) 0 .accepted]).mounted = false := by
  decide

/-- C7, amended: no segment of a handler lets an exception escape; and an accepted
`findPeopleAxios` or `findPeopleFetch` ends, for every response whose `results`, when the
body can be read, is a list of records, in exactly one of two ways. Either reading
`results` off the response succeeds, `people` becomes the reset value with the adapter's
field put to that list (which may be empty), and the effects are that `setPeople` and the
timer, with no error logged; or the request, the status check, the parsing or the reading
fails, `people` stays `{ axios: [], fetch: [] }`, and the effects are one `console.error`
and the timer, with no `setPeople`. In both cases `App` stays on the page. -/
theorem single_strategy_outcome (w : World) (hm : w.mounted = true)
    (h : w.app.isLoading = false) :
    (∀ e w0, ((dispatch w0 e).exec w0).1 = .ok ()) ∧
    (∀ o n r, o.results ≠ .ok .undefined →
      (∃ list, o.results = .ok (.records list) ∧
        (run w [.invoke .findPeopleAxios, .axiosSettles w.queries.length o n r]).app.people
          = { axios := .records list, fetch := .records [] } ∧
        (run w [.invoke .findPeopleAxios, .axiosSettles w.queries.length o n r]).mounted
          = true ∧
        (run w [.invoke .findPeopleAxios, .axiosSettles w.queries.length o n r]).trace
          = (w.queries.length, .setTimeout 500)
            :: (w.queries.length,
                .setPeople { axios := .records list, fetch := .records [] })
            :: (step w (.invoke .findPeopleAxios)).trace) ∨
      (∃ message, o.results = .error message ∧
        (run w [.invoke .findPeopleAxios, .axiosSettles w.queries.length o n r]).app.people
          = People.empty ∧
        (run w [.invoke .findPeopleAxios, .axiosSettles w.queries.length o n r]).mounted
          = true ∧
        (run w [.invoke .findPeopleAxios, .axiosSettles w.queries.length o n r]).trace
          = (w.queries.length, .setTimeout 500)
            :: (w.queries.length, .consoleError ("Error en Axios: " ++ message))
            :: (step w (.invoke .findPeopleAxios)).trace)) ∧
    (∀ o b n r, (o.failure = none → b.results ≠ .ok .undefined) →
      (∃ list, o.failure = none ∧ b.results = .ok (.records list) ∧
        (run w [.invoke .findPeopleFetch, .fetchResponds w.queries.length o,
            .bodyRead w.queries.length b n r]).app.people
          = { axios := .records [], fetch := .records list } ∧
        (run w [.invoke .findPeopleFetch, .fetchResponds w.queries.length o,
            .bodyRead w.queries.length b n r]).mounted = true ∧
        (run w [.invoke .findPeopleFetch, .fetchResponds w.queries.length o,
            .bodyRead w.queries.length b n r]).trace
          = (w.queries.length, .setTimeout 500)
            :: (w.queries.length,
                .setPeople { axios := .records [], fetch := .records list })
            :: (step w (.invoke .findPeopleFetch)).trace) ∨
      (∃ message, (o.failure = some message ∨ o.failure = none ∧ b.results = .error message) ∧
        (run w [.invoke .findPeopleFetch, .fetchResponds w.queries.length o,
            .bodyRead w.queries.length b n r]).app.people = People.empty ∧
        (run w [.invoke .findPeopleFetch, .fetchResponds w.queries.length o,
            .bodyRead w.queries.length b n r]).mounted = true ∧
        (run w [.invoke .findPeopleFetch, .fetchResponds w.queries.length o,
            .bodyRead w.queries.length b n r]).trace
          = (w.queries.length, .setTimeout 500)
            :: (w.queries.length, .consoleError ("Error en Fetch: " ++ message))
            :: (step w (.invoke .findPeopleFetch)).trace)) := by
  have hpa := accepted_people w w.queries.length "axios" [.axios] (.axios false) hm
  have hpf := accepted_people w w.queries.length "fetch" [.fetch]
    (.fetch .awaitingResponse) hm
  have hma := (accepted_mounted w w.queries.length "axios" [.axios] (.axios false)).trans hm
  have hmf := (accepted_mounted w w.queries.length "fetch" [.fetch]
    (.fetch .awaitingResponse)).trans hm
  refine ⟨fun e w0 => dispatch_ok w0 e, fun o n r hdef => ?_, fun o b n r hdef => ?_⟩
  · simp only [run, List.foldl]
    rw [step_invoke_findPeopleAxios w hm h,
      step_findPeopleAxiosSettled _ _ o n r (accepted_queries_getElem? _ _ _ _) hpa hdef]
    cases hr : o.results with
    | error m => right; exact ⟨m, rfl, hpa, hma, rfl⟩
    | ok res =>
      cases res with
      | undefined => exact absurd hr hdef
      | records list =>
        left
        exact ⟨list, rfl, published_people _ _ _ hma, (published_mounted _ _ _).trans hma, rfl⟩
  · simp only [run, List.foldl]
    rw [step_invoke_findPeopleFetch w hm h,
      step_findPeopleFetchResponded _ _ o (accepted_queries_getElem? _ _ _ _) hpf]
    have hlen : w.queries.length ≤
        (accepted w w.queries.length "fetch" [.fetch]
          (.fetch .awaitingResponse)).queries.length := by
      rw [accepted_queries, setAt_length]; simp
    cases hf : o.failure with
    | some m =>
      right
      rw [step_bodyRead_of_settled _ _ b n r (getElem?_setAt_self _ _ _ hlen)]
      exact ⟨m, Or.inl rfl, hpf, hmf, rfl⟩
    | none =>
      simp only
      rw [step_findPeopleFetchBody
        { accepted w w.queries.length "fetch" [.fetch] (.fetch .awaitingResponse) with
          queries := setAt (accepted w w.queries.length "fetch" [.fetch]
            (.fetch .awaitingResponse)).queries w.queries.length (.fetch .awaitingBody) }
        w.queries.length b n r (getElem?_setAt_self _ _ _ hlen) hpf (hdef hf)]
      cases hr : b.results with
      | error m => right; exact ⟨m, Or.inr ⟨trivial, rfl⟩, hpf, hmf, rfl⟩
      | ok res =>
        cases res with
        | undefined => exact absurd hr (hdef hf)
        | records list =>
          left
          exact ⟨list, trivial, rfl, published_people _ _ _ hmf,
            (published_mounted _ _ _).trans hmf, rfl⟩

/-- C7, amended, at a concrete input: `findPeopleAxios` answered with one record. -/
theorem single_strategy_outcome_witness :
    (init emptyStore).mounted = true ∧ (init emptyStore).app.isLoading = false ∧
      (run (init emptyStore) [.invoke .findPeopleAxios,
        .axiosSettles 0 (.resolved (.object (.records [alice]))) 0 .accepted]).app.people
      = { axios := .records [alice], fetch := .records [] } := by
  refine ⟨rfl, rfl, ?_⟩
  rcases (single_strategy_outcome (init emptyStore) rfl rfl).2.1
    (.resolved (.object (.records [alice]))) 0 .accepted (fun hu => by cases hu) with
    ⟨l, h1, h2, _⟩ | ⟨m, h1, _⟩
  · cases h1
    exact h2
  · cases h1

/-! ## A comparison whose fetch request fails -/

/-- C4 as stated fails: in a comparison fetch is answered with HTTP 500 and axios succeeds
with one record, in either order; `people.axios` is then `[]`, so the panel of axios is
not populated. -/
theorem compare_fetch_500_axios_panel :
    (run (init emptyStore) [.invoke .compareRequests,
        .axiosSettles 0 (.resolved (.object (.records [alice]))) 1234 .accepted,
        .fetchResponds 0 (.responded false 500 "Internal Server Error"),
        .timerFires]).app.people.axios = .records [] ∧
      (run (init emptyStore) [.invoke .compareRequests,
        .fetchResponds 0 (.responded false 500 "Internal Server Error"),
        .axiosSettles 0 (.resolved (.object (.records [alice]))) 1234 .accepted,
        .timerFires]).app.people.axios = .records [] := by
  decide

theorem fetch_failure_run (w : World) (status : Nat) (statusText : String)
    (results : Results) (n : Nat) (r : StoreReply) (events : List Event)
    (hm : w.mounted = true) (h : w.app.isLoading = false)
    (horder :
      events = [.axiosSettles w.queries.length (.resolved (.object results)) n r,
          .fetchResponds w.queries.length (.responded false status statusText), .timerFires] ∨
      events = [.fetchResponds w.queries.length (.responded false status statusText),
          .axiosSettles w.queries.length (.resolved (.object results)) n r, .timerFires] ∨
      events = [.fetchResponds w.queries.length (.responded false status statusText),
          .timerFires, .axiosSettles w.queries.length (.resolved (.object results)) n r]) :
    (run w (.invoke .compareRequests :: events)).app.people = People.empty ∧
      (run w (.invoke .compareRequests :: events)).app.isLoading = false ∧
      (run w (.invoke .compareRequests :: events)).mounted = true ∧
      (r = .accepted →
        (run w (.invoke .compareRequests :: events)).localStorage
          = setItem w.localStorage "axiosTime" (toFixed2 n) ∧
        (run w (.invoke .compareRequests :: events)).app.axiosTime = toFixed2 n ∧
        loggedErrors (run w (.invoke .compareRequests :: events)).trace
          = ("Error en comparación: " ++ httpError status statusText)
            :: loggedErrors w.trace) ∧
      (∀ message, r = .refused message →
        (run w (.invoke .compareRequests :: events)).localStorage = w.localStorage ∧
        (run w (.invoke .compareRequests :: events)).app.axiosTime = w.app.axiosTime ∧
        (loggedErrors (run w (.invoke .compareRequests :: events)).trace
            = ("Error en comparación: " ++ httpError status statusText)
              :: loggedErrors w.trace ∨
          loggedErrors (run w (.invoke .compareRequests :: events)).trace
            = ("Error en comparación: " ++ message) :: loggedErrors w.trace)) := by
  obtain ⟨⟨p, g, c, l, lt, at1, ft⟩, m, st, qs, ts, tr⟩ := w
  simp only at hm h
  subst hm h
  rcases horder with rfl | rfl | rfl <;> rcases r with _ | msg <;> cases ts <;>
    simp [run, step, handled_invoke_compareRequests, handled_timerFires,
      handled_axiosSettles, handled_fetchResponds, rendered, render_eq_none,
      accepted, World.setState, setAt_length, setAt_append_length,
      compareAxiosSettled_exec, compareFetchResponded_exec, reacted, published,
      timed, Comparison.join, Comparison.fresh, AxiosOutcome.timedResults,
      AxiosOutcome.results, Promise.settled,
      FetchOutcome.failure, failed, loggedErrors, People.empty]

/-- C4, amended: in an accepted comparison whose fetch request gets a response that is not
`ok` (HTTP 500, say) and whose axios request succeeds, in either order and with the timer
before or after the later settlement: `people` stays `{ axios: [], fetch: [] }`, `App`
stays on the page, and with the busy flag cleared both panels show "No hay resultados".
When the store accepts the write, the elapsed time of axios is stored under `axiosTime`
(the other keys keep their entries) and put in the cell `axiosTime`, and the one error
logged is `Error en comparación: Error HTTP: <status> - <statusText>`. When
`localStorage.setItem` throws, the store and the cell `axiosTime` are as before the
comparison, and the one error logged is that of the response or that of the store. -/
theorem compare_fetch_failure (w : World) (status : Nat) (statusText : String)
    (results : Results) (n : Nat) (r : StoreReply) (events : List Event)
    (hm : w.mounted = true) (h : w.app.isLoading = false)
    (horder :
      events = [.axiosSettles w.queries.length (.resolved (.object results)) n r,
          .fetchResponds w.queries.length (.responded false status statusText), .timerFires] ∨
      events = [.fetchResponds w.queries.length (.responded false status statusText),
          .axiosSettles w.queries.length (.resolved (.object results)) n r, .timerFires] ∨
      events = [.fetchResponds w.queries.length (.responded false status statusText),
          .timerFires, .axiosSettles w.queries.length (.resolved (.object results)) n r]) :
    (run w (.invoke .compareRequests :: events)).app.people = People.empty ∧
      (run w (.invoke .compareRequests :: events)).app.isLoading = false ∧
      (run w (.invoke .compareRequests :: events)).mounted = true ∧
      peopleGrid (run w (.invoke .compareRequests :: events)).app.people.axios
        (run w (.invoke .compareRequests :: events)).app.isLoading = some .noResults ∧
      peopleGrid (run w (.invoke .compareRequests :: events)).app.people.fetch
        (run w (.invoke .compareRequests :: events)).app.isLoading = some .noResults ∧
      (r = .accepted →
        (run w (.invoke .compareRequests :: events)).localStorage "axiosTime"
          = some (toFixed2 n) ∧
        (∀ key, key ≠ "axiosTime" →
          (run w (.invoke .compareRequests :: events)).localStorage key
            = w.localStorage key) ∧
        (run w (.invoke .compareRequests :: events)).app.axiosTime = toFixed2 n ∧
        loggedErrors (run w (.invoke .compareRequests :: events)).trace
          = ("Error en comparación: " ++ httpError status statusText)
            :: loggedErrors w.trace) ∧
      (∀ message, r = .refused message →
        (∀ key, (run w (.invoke .compareRequests :: events)).localStorage key
          = w.localStorage key) ∧
        (run w (.invoke .compareRequests :: events)).app.axiosTime = w.app.axiosTime ∧
        (loggedErrors (run w (.invoke .compareRequests :: events)).trace
            = ("Error en comparación: " ++ httpError status statusText)
              :: loggedErrors w.trace ∨
          loggedErrors (run w (.invoke .compareRequests :: events)).trace
            = ("Error en comparación: " ++ message) :: loggedErrors w.trace)) := by
  obtain ⟨k1, k2, k3, k4, k5⟩ := fetch_failure_run w status statusText results n r events
    hm h horder
  refine ⟨k1, k2, k3, ?_, ?_, fun hr => ?_, fun message hr => ?_⟩
  · rw [k1, k2]; rfl
  · rw [k1, k2]; rfl
  · obtain ⟨s1, s2, s3⟩ := k4 hr
    refine ⟨?_, fun key hkey => ?_, s2, s3⟩
    · rw [s1]; simp [setItem]
    · rw [s1]; simp [setItem, hkey]
  · obtain ⟨s1, s2, s3⟩ := k5 message hr
    exact ⟨fun key => by rw [s1], s2, s3⟩

/-- C4, amended, at a concrete input: HTTP 500 first, then the axios records, which the
store accepts; the timing 1234 hundredths of a millisecond is stored as `12.34`. -/
theorem compare_fetch_failure_witness :
    (init emptyStore).mounted = true ∧ (init emptyStore).app.isLoading = false ∧
      (run (init emptyStore) [.invoke .compareRequests,
        .fetchResponds 0 (.responded false 500 "Internal Server Error"),
        .axiosSettles 0 (.resolved (.object (.records [alice]))) 1234 .accepted,
        .timerFires]).app.people = People.empty ∧
      (run (init emptyStore) [.invoke .compareRequests,
        .fetchResponds 0 (.responded false 500 "Internal Server Error"),
        .axiosSettles 0 (.resolved (.object (.records [alice]))) 1234 .accepted,
        .timerFires]).localStorage "axiosTime" = some "12.34" :=
  ⟨rfl, rfl,
    (compare_fetch_failure (init emptyStore) 500 "Internal Server Error" (.records [alice])
      1234 .accepted _ rfl rfl (Or.inr (Or.inl rfl))).1,
    ((compare_fetch_failure (init emptyStore) 500 "Internal Server Error" (.records [alice])
      1234 .accepted _ rfl rfl (Or.inr (Or.inl rfl))).2.2.2.2.2.1 rfl).1.trans
        (congrArg some (by decide))⟩

/-! ## Publication of a comparison -/

theorem published_handled (base : List People) (q : Nat) (w : World) (c : Comparison)
    (e : Event) (hw : Published base q w c) (he : e.within q = true) :
    Published base q (handled w e) (c.after e) := by
  obtain ⟨hq, hs, hm⟩ := hw
  have hlt := lt_length_of_getElem? hq
  rcases e with h | v | v | ⟨i, o, n, r⟩ | ⟨i, o⟩ | ⟨i, b, n, r⟩ | _
  · simp [Event.within] at he
  · obtain ⟨app, m, st, qs, ts, tr⟩ := w
    cases m <;> exact ⟨hq, hs, hm⟩
  · obtain ⟨app, m, st, qs, ts, tr⟩ := w
    cases m <;> exact ⟨hq, hs, hm⟩
  · simp only [Event.within, decide_eq_true_eq] at he
    subst he
    rw [handled_axiosSettles, hq]
    simp only [Comparison.after]
    split
    · next hp =>
      rw [compareAxiosSettled_exec]
      obtain ⟨a, fs, f, al⟩ := c
      obtain ⟨app, m, st, qs, ts, tr⟩ := w
      simp only at hp
      subst hp
      rcases o with m'' | (e | res) <;> rcases r with _ | msg <;>
      · refine ⟨by rw [reacted_queries]; exact getElem?_setAt_self _ _ _ (Nat.le_of_lt
          (by first | exact hlt | (simp only [timed_queries]; exact hlt))), ?_⟩
        rcases al with _ | ⟨a', f'⟩ | m1 <;> rcases f with _ | f | m' <;> cases m <;>
          simp_all [reacted, Comparison.join, published, failed, timed, peopleUpdates,
            AxiosOutcome.results, AxiosOutcome.timedResults, Promise.settled, World.setState]
    · exact ⟨hq, hs, hm⟩
  · simp only [Event.within, decide_eq_true_eq] at he
    subst he
    rw [handled_fetchResponds, hq]
    simp only [Comparison.after]
    split
    · next hp =>
      rw [compareFetchResponded_exec]
      obtain ⟨a, fs, f, al⟩ := c
      obtain ⟨app, m, st, qs, ts, tr⟩ := w
      simp only at hp
      subst hp
      rcases o with m'' | ⟨_ | _, s, t⟩ <;>
        simp only [FetchOutcome.failure, Bool.false_eq_true, if_false, if_true]
      · refine ⟨by rw [reacted_queries]; exact getElem?_setAt_self _ _ _ (Nat.le_of_lt hlt), ?_⟩
        rcases al with _ | ⟨a', f'⟩ | m1 <;> rcases a with _ | a | m' <;> cases m <;>
          simp_all [reacted, Comparison.join, published, failed, peopleUpdates,
            World.setState]
      · refine ⟨by rw [reacted_queries]; exact getElem?_setAt_self _ _ _ (Nat.le_of_lt hlt), ?_⟩
        rcases al with _ | ⟨a', f'⟩ | m1 <;> rcases a with _ | a | m' <;> cases m <;>
          simp_all [reacted, Comparison.join, published, failed, peopleUpdates,
            World.setState]
      · refine ⟨getElem?_setAt_self _ _ _ (Nat.le_of_lt hlt), ?_⟩
        rcases al with _ | ⟨a', f'⟩ | m1 <;> simp_all
    · exact ⟨hq, hs, hm⟩
  · simp only [Event.within, decide_eq_true_eq] at he
    subst he
    rw [handled_bodyRead, hq]
    simp only [Comparison.after]
    split
    · next hp =>
      rw [compareFetchBody_exec]
      obtain ⟨a, fs, f, al⟩ := c
      obtain ⟨app, m, st, qs, ts, tr⟩ := w
      simp only at hp
      subst hp
      rcases b with m'' | (e | res) <;> rcases r with _ | msg <;>
      · refine ⟨by rw [reacted_queries]; exact getElem?_setAt_self _ _ _ (Nat.le_of_lt
          (by first | exact hlt | (simp only [timed_queries]; exact hlt))), ?_⟩
        rcases al with _ | ⟨a', f'⟩ | m1 <;> rcases a with _ | a | m' <;> cases m <;>
          simp_all [reacted, Comparison.join, published, failed, timed, peopleUpdates,
            Body.results, Body.timedResults, Promise.settled, World.setState]
    · exact ⟨hq, hs, hm⟩
  · rw [handled_timerFires]
    simp only [Comparison.after]
    split
    · exact ⟨hq, hs, hm⟩
    · obtain ⟨app, m, st, qs, ts, tr⟩ := w
      refine ⟨by cases m <;> exact hq, hs, ?_⟩
      revert hm
      rcases c.all with _ | ⟨a', f'⟩ | m1 <;> cases m <;>
        simp [peopleUpdates, World.setState]

theorem published_rendered (base : List People) (q : Nat) (before after : World)
    (c : Comparison) (h : Published base q after c) :
    Published base q (rendered before after) c := by
  obtain ⟨hq, hs, hm⟩ := h
  refine ⟨by rw [rendered_queries]; exact hq, hs, ?_⟩
  revert hm
  rcases c.all with _ | ⟨a', f'⟩ | m1
  · simp only
    rintro ⟨h1, h2, h3, h4, h5, h6⟩
    rw [rendered_of_people before after [] [] h5]
    exact ⟨h1, h2, h3, h4, h5, h6⟩
  · simp only [rendered_app, rendered_trace]
    exact id
  · simp only [rendered_app, rendered_trace]
    exact id

theorem published_step (base : List People) (q : Nat) (w : World) (c : Comparison)
    (e : Event) (hw : Published base q w c) (he : e.within q = true) :
    Published base q (step w e) (c.after e) :=
  published_rendered base q w _ _ (published_handled base q w c e hw he)

theorem published_run (base : List People) (q : Nat) (events : List Event) :
    ∀ (w : World) (c : Comparison), Published base q w c →
      (∀ e ∈ events, e.within q = true) →
      Published base q (run w events) (events.foldl Comparison.after c) := by
  induction events with
  | nil => intro w c hw _; exact hw
  | cons e rest ih =>
    intro w c hw hev
    exact ih (step w e) (c.after e)
      (published_step base q w c e hw (hev e (List.mem_cons_self _ _)))
      (fun e' he' => hev e' (List.mem_cons_of_mem _ he'))

theorem published_accept (w : World) (hm : w.mounted = true)
    (h : w.app.isLoading = false) :
    Published (peopleUpdates w.trace) w.queries.length (step w (.invoke .compareRequests))
      Comparison.fresh := by
  rw [step_invoke_compareRequests w hm h]
  refine ⟨accepted_queries_getElem? _ _ _ _, by simp [Comparison.fresh], ?_⟩
  simp [Comparison.fresh, accepted, peopleUpdates, World.setState, hm]

/-- C3: an accepted `compareRequests` (the busy flag is down and `App` is on the page)
followed by any events of its run (the settlements of its two requests in any order, the
store accepting or refusing each timing, timers, changes of the inputs). The promises of
the comparison are then the fold of `Comparison.after` over the events. When
`axiosPromise` and `fetchPromise` are both fulfilled (both adapters succeeded), `people`
is `{ axios: the axios results, fetch: the fetch results }` and the handler has called
`setPeople` exactly twice, the reset and that one update. In every other case (an adapter
failed, or is still pending) `people` is `{ axios: [], fetch: [] }` and the reset is the
only `setPeople`: `people` never holds the results of one adapter alone. -/
theorem compareRequests_publication (w : World) (events : List Event)
    (hm : w.mounted = true) (h : w.app.isLoading = false)
    (hev : ∀ e ∈ events, e.within w.queries.length = true) :
    (run w (.invoke .compareRequests :: events)).queries[w.queries.length]?
        = some (.compare (events.foldl Comparison.after Comparison.fresh)) ∧
      (∀ a f, (events.foldl Comparison.after Comparison.fresh).axiosPromise = .fulfilled a →
        (events.foldl Comparison.after Comparison.fresh).fetchPromise = .fulfilled f →
        (run w (.invoke .compareRequests :: events)).app.people = { axios := a, fetch := f } ∧
        peopleUpdates (run w (.invoke .compareRequests :: events)).trace
          = { axios := a, fetch := f } :: People.empty :: peopleUpdates w.trace) ∧
      ((∀ a, (events.foldl Comparison.after Comparison.fresh).axiosPromise ≠ .fulfilled a) ∨
          (∀ f, (events.foldl Comparison.after Comparison.fresh).fetchPromise ≠ .fulfilled f) →
        (run w (.invoke .compareRequests :: events)).app.people = People.empty ∧
        peopleUpdates (run w (.invoke .compareRequests :: events)).trace
          = People.empty :: peopleUpdates w.trace) := by
  have key := published_run (peopleUpdates w.trace) w.queries.length events _ _
    (published_accept w hm h) hev
  obtain ⟨hq, hs, hp⟩ := key
  refine ⟨hq, ?_, ?_⟩
  · intro a f ha hf
    revert hp
    rcases hc : (events.foldl Comparison.after Comparison.fresh).all with _ | ⟨a', f'⟩ | m
    · simp [ha, hf]
    · simp only [ha, hf]
      rintro ⟨h1, h2, h3, h4⟩
      cases h1; cases h2
      exact ⟨h3, h4⟩
    · simp [ha, hf]
  · intro hn
    revert hp
    rcases hc : (events.foldl Comparison.after Comparison.fresh).all with _ | ⟨a', f'⟩ | m
    · simp only
      rintro ⟨_, _, _, _, h3, h4⟩
      exact ⟨h3, h4⟩
    · simp only
      rintro ⟨h1, h2, _, _⟩
      rcases hn with hn | hn
      · exact absurd h1 (hn _)
      · exact absurd h2 (hn _)
    · simp only
      rintro ⟨_, h3, h4⟩
      exact ⟨h3, h4⟩

/-- C3 at a concrete input: both adapters succeed with one record each. -/
theorem compareRequests_publication_witness :
    (init emptyStore).mounted = true ∧ (init emptyStore).app.isLoading = false ∧
      (run (init emptyStore) [.invoke .compareRequests,
        .fetchResponds 0 (.responded true 200 "OK"),
        .axiosSettles 0 (.resolved (.object (.records [alice]))) 1234 .accepted,
        .bodyRead 0 (.parsed (.object (.records [alice]))) 1300 .accepted]).app.people
      = { axios := .records [alice], fetch := .records [alice] } :=
  ⟨rfl, rfl,
    ((compareRequests_publication (init emptyStore)
      [.fetchResponds 0 (.responded true 200 "OK"),
        .axiosSettles 0 (.resolved (.object (.records [alice]))) 1234 .accepted,
        .bodyRead 0 (.parsed (.object (.records [alice]))) 1300 .accepted]
      rfl rfl (by decide)).2.1
      (.records [alice]) (.records [alice]) (by decide) (by decide)).1⟩

/-! ## Timings are stored before results are shown -/

/-- C6 as stated fails: `findPeopleAxios` answered with one record puts that record into
`people.axios`, and the whole log of the query holds no `localStorage.setItem`. -/
theorem findPeopleAxios_displays_without_write :
    (run (init emptyStore) [.invoke .findPeopleAxios,
        .axiosSettles 0 (.resolved (.object (.records [alice]))) 0 .accepted]).trace =
      [(0, .setTimeout 500),
       (0, .setPeople { axios := .records [alice], fetch := .records [] }),
       (0, .request .axios "https://randomuser.me/api/?results=12&gender=&nat=US"),
       (0, .setPeople People.empty), (0, .setLoadingType "axios"),
       (0, .setIsLoading true)] ∧
      storageWrites (run (init emptyStore) [.invoke .findPeopleAxios,
        .axiosSettles 0 (.resolved (.object (.records [alice]))) 0 .accepted]).trace
        = [] := by
  decide

theorem setState_trace (w : World) (update : AppState → AppState) :
    (w.setState update).trace = w.trace := by
  obtain ⟨app, m, st, qs, ts, tr⟩ := w
  cases m <;> rfl

theorem wrote_cons (q : Nat) (key : String) (x : Nat × Effect) (t : List (Nat × Effect))
    (h : wrote q key t = true) : wrote q key (x :: t) = true := by
  simp only [wrote, List.any_cons] at h ⊢
  rw [h]
  exact Bool.or_true _

theorem wrote_cons_self (q : Nat) (key value : String) (t : List (Nat × Effect)) :
    wrote q key ((q, .setItem key value) :: t) = true := by
  simp [wrote]

theorem timingFirst_cons (q : Nat) (x : Nat × Effect) (t : List (Nat × Effect))
    (hx : ∀ p, x.2 ≠ .setPeople p) (h : timingFirst q t) : timingFirst q (x :: t) := by
  obtain ⟨i, e⟩ := x
  cases e <;> first | exact h | exact absurd rfl (hx _)

theorem wrote_timed (q : Nat) (w : World) (axios : Bool) (name key time k : String)
    (reply : StoreReply) (h : wrote q k w.trace = true) :
    wrote q k (timed w q axios name key time reply).trace = true := by
  cases reply
  · exact wrote_cons _ _ _ _ (wrote_cons _ _ _ _ (wrote_cons _ _ _ _ h))
  · exact wrote_cons _ _ _ _ h

theorem wrote_timed_self (q : Nat) (w : World) (axios : Bool) (name key time : String) :
    wrote q key (timed w q axios name key time .accepted).trace = true :=
  wrote_cons _ _ _ _ (wrote_cons_self _ _ _ _)

theorem timingFirst_timed (q : Nat) (w : World) (axios : Bool) (name key time : String)
    (reply : StoreReply) (h : timingFirst q w.trace) :
    timingFirst q (timed w q axios name key time reply).trace := by
  cases reply
  · refine timingFirst_cons _ _ _ ?_ (timingFirst_cons _ _ _ ?_ (timingFirst_cons _ _ _ ?_ h))
    · intro p; cases axios <;> simp
    · intro p; simp
    · intro p; simp
  · exact timingFirst_cons _ _ _ (by intro p; simp) h

theorem wrote_reacted (q : Nat) (w : World) (c c1 : Comparison) (k : String)
    (h : wrote q k w.trace = true) : wrote q k (reacted w q c c1).trace = true := by
  unfold reacted
  split
  · split
    · exact h
    · exact wrote_cons _ _ _ _ (wrote_cons _ _ _ _ h)
    · exact wrote_cons _ _ _ _ (wrote_cons _ _ _ _ h)
  · exact h

theorem join_fulfilled (c : Comparison) (a f : Results) (hp : c.all = .pending)
    (h : c.join = .fulfilled (a, f)) :
    c.axiosPromise = .fulfilled a ∧ c.fetchPromise = .fulfilled f := by
  obtain ⟨pa, fs, pf, al⟩ := c
  simp only at hp
  subst hp
  rcases pa with _ | a' | m <;> rcases pf with _ | f' | m' <;>
    simp_all [Comparison.join]

theorem timingFirst_reacted (q : Nat) (w : World) (c c1 : Comparison)
    (hall : c1.all = c.all)
    (h : timingFirst q w.trace)
    (ha : ∀ a, c1.axiosPromise = .fulfilled a → wrote q "axiosTime" w.trace = true)
    (hf : ∀ f, c1.fetchPromise = .fulfilled f → wrote q "fetchTime" w.trace = true) :
    timingFirst q (reacted w q c c1).trace := by
  unfold reacted
  split
  · next hp =>
    split
    · exact h
    · next a f hj =>
      obtain ⟨h1, h2⟩ := join_fulfilled c1 a f (hall.trans hp) hj
      refine timingFirst_cons _ _ _ (by intro p; simp) ?_
      exact ⟨fun _ => ⟨fun _ => ha a h1, fun _ => hf f h2⟩, h⟩
    · exact timingFirst_cons _ _ _ (by intro p; simp)
        (timingFirst_cons _ _ _ (by intro p; simp) h)
  · exact h

theorem timed_axiosSettles (q : Nat) (w : World) (c : Comparison) (o : AxiosOutcome)
    (n : Nat) (r : StoreReply) (hw : Timed q w c) :
    Timed q (handled w (.axiosSettles q o n r)) (c.after (.axiosSettles q o n r)) := by
  obtain ⟨hq, ha, hf, ht⟩ := hw
  have hlt := lt_length_of_getElem? hq
  rw [handled_axiosSettles, hq]
  simp only [Comparison.after]
  split
  · next hp =>
    rw [compareAxiosSettled_exec]
    rcases o with m | data
    · refine ⟨by rw [reacted_queries]; exact getElem?_setAt_self _ _ _ (Nat.le_of_lt hlt),
        ?_, ?_, ?_⟩
      · intro a h1
        simp [AxiosOutcome.timedResults, Promise.settled] at h1
      · intro f h1
        exact wrote_reacted _ _ _ _ _ (hf f h1)
      · refine timingFirst_reacted _ _ _ _ rfl ht ?_ hf
        intro a h1
        simp [AxiosOutcome.timedResults, Promise.settled] at h1
    · have hlt1 : q < (timed w q true "Axios" "axiosTime" (toFixed2 n) r).queries.length := by
        rw [timed_queries]; exact hlt
      refine ⟨by rw [reacted_queries]; exact getElem?_setAt_self _ _ _ (Nat.le_of_lt hlt1),
        ?_, ?_, ?_⟩
      · intro a h1
        rcases r with _ | msg
        · exact wrote_reacted _ _ _ _ _ (wrote_timed_self _ _ _ _ _ _)
        · simp [AxiosOutcome.timedResults, Promise.settled] at h1
      · intro f h1
        exact wrote_reacted _ _ _ _ _ (wrote_timed _ _ _ _ _ _ _ _ (hf f h1))
      · refine timingFirst_reacted _ _ _ _ rfl (timingFirst_timed _ _ _ _ _ _ _ ht) ?_ ?_
        · intro a h1
          rcases r with _ | msg
          · exact wrote_timed_self _ _ _ _ _ _
          · simp [AxiosOutcome.timedResults, Promise.settled] at h1
        · intro f h1
          exact wrote_timed _ _ _ _ _ _ _ _ (hf f h1)
  · exact ⟨hq, ha, hf, ht⟩

theorem timed_fetchResponds (q : Nat) (w : World) (c : Comparison) (o : FetchOutcome)
    (hw : Timed q w c) :
    Timed q (handled w (.fetchResponds q o)) (c.after (.fetchResponds q o)) := by
  obtain ⟨hq, ha, hf, ht⟩ := hw
  have hlt := lt_length_of_getElem? hq
  rw [handled_fetchResponds, hq]
  simp only [Comparison.after]
  split
  · next hp =>
    rw [compareFetchResponded_exec]
    cases hfail : o.failure with
    | none =>
      exact ⟨getElem?_setAt_self _ _ _ (Nat.le_of_lt hlt), ha, hf, ht⟩
    | some message =>
      refine ⟨by rw [reacted_queries]; exact getElem?_setAt_self _ _ _ (Nat.le_of_lt hlt),
        ?_, ?_, ?_⟩
      · intro a h1
        exact wrote_reacted _ _ _ _ _ (ha a h1)
      · intro f h1
        simp at h1
      · refine timingFirst_reacted _ _ _ _ rfl ht ha ?_
        intro f h1
        simp at h1
  · exact ⟨hq, ha, hf, ht⟩

theorem timed_bodyRead (q : Nat) (w : World) (c : Comparison) (b : Body)
    (n : Nat) (r : StoreReply) (hw : Timed q w c) :
    Timed q (handled w (.bodyRead q b n r)) (c.after (.bodyRead q b n r)) := by
  obtain ⟨hq, ha, hf, ht⟩ := hw
  have hlt := lt_length_of_getElem? hq
  rw [handled_bodyRead, hq]
  simp only [Comparison.after]
  split
  · next hp =>
    rw [compareFetchBody_exec]
    rcases b with m | data
    · refine ⟨by rw [reacted_queries]; exact getElem?_setAt_self _ _ _ (Nat.le_of_lt hlt),
        ?_, ?_, ?_⟩
      · intro a h1
        exact wrote_reacted _ _ _ _ _ (ha a h1)
      · intro f h1
        simp [Body.timedResults, Promise.settled] at h1
      · refine timingFirst_reacted _ _ _ _ rfl ht ha ?_
        intro f h1
        simp [Body.timedResults, Promise.settled] at h1
    · have hlt1 : q < (timed w q false "Fetch" "fetchTime" (toFixed2 n) r).queries.length := by
        rw [timed_queries]; exact hlt
      refine ⟨by rw [reacted_queries]; exact getElem?_setAt_self _ _ _ (Nat.le_of_lt hlt1),
        ?_, ?_, ?_⟩
      · intro a h1
        exact wrote_reacted _ _ _ _ _ (wrote_timed _ _ _ _ _ _ _ _ (ha a h1))
      · intro f h1
        rcases r with _ | msg
        · exact wrote_reacted _ _ _ _ _ (wrote_timed_self _ _ _ _ _ _)
        · simp [Body.timedResults, Promise.settled] at h1
      · refine timingFirst_reacted _ _ _ _ rfl (timingFirst_timed _ _ _ _ _ _ _ ht) ?_ ?_
        · intro a h1
          exact wrote_timed _ _ _ _ _ _ _ _ (ha a h1)
        · intro f h1
          rcases r with _ | msg
          · exact wrote_timed_self _ _ _ _ _ _
          · simp [Body.timedResults, Promise.settled] at h1
  · exact ⟨hq, ha, hf, ht⟩

theorem timed_setState (q : Nat) (w : World) (c : Comparison)
    (update : AppState → AppState) (hw : Timed q w c) : Timed q (w.setState update) c := by
  unfold Timed at *
  rw [setState_queries, setState_trace]
  exact hw

theorem timed_step (q : Nat) (w : World) (c : Comparison)
    (e : Event) (hw : Timed q w c) (he : e.within q = true) :
    Timed q (step w e) (c.after e) := by
  have key : Timed q (handled w e) (c.after e) := by
    rcases e with h | v | v | ⟨i, o, n, r⟩ | ⟨i, o⟩ | ⟨i, b, n, r⟩ | _
    · simp [Event.within] at he
    · exact timed_setState _ _ _ _ hw
    · exact timed_setState _ _ _ _ hw
    · simp only [Event.within, decide_eq_true_eq] at he
      subst he
      exact timed_axiosSettles _ _ _ _ _ _ hw
    · simp only [Event.within, decide_eq_true_eq] at he
      subst he
      exact timed_fetchResponds _ _ _ _ hw
    · simp only [Event.within, decide_eq_true_eq] at he
      subst he
      exact timed_bodyRead _ _ _ _ _ _ hw
    · obtain ⟨hq, ha, hf, ht⟩ := hw
      rw [handled_timerFires]
      simp only [Comparison.after]
      split
      · exact ⟨hq, ha, hf, ht⟩
      · refine ⟨(congrArg (fun qs => qs[q]?) (setState_queries _ _)).trans hq, ?_, ?_, ?_⟩
        · intro a h1
          exact wrote_cons _ _ _ _ (ha a h1)
        · intro f h1
          exact wrote_cons _ _ _ _ (hf f h1)
        · exact timingFirst_cons _ _ _ (by intro p; simp) ht
  unfold Timed at key ⊢
  rw [step_queries, step_trace]
  exact key

theorem timed_run (q : Nat) (events : List Event) :
    ∀ (w : World) (c : Comparison), Timed q w c →
      (∀ e ∈ events, e.within q = true) →
      Timed q (run w events) (events.foldl Comparison.after c) := by
  induction events with
  | nil => intro w c hw _; exact hw
  | cons e rest ih =>
    intro w c hw hev
    exact ih (step w e) (c.after e)
      (timed_step q w c e hw (hev e (List.mem_cons_self _ _)))
      (fun e' he' => hev e' (List.mem_cons_of_mem _ he'))

theorem timingFirst_of_fresh (q : Nat) (t : List (Nat × Effect))
    (h : ∀ entry ∈ t, entry.1 ≠ q) : timingFirst q t := by
  induction t with
  | nil => trivial
  | cons x t ih =>
    have ht := ih (fun entry he => h entry (List.mem_cons_of_mem _ he))
    obtain ⟨i, e⟩ := x
    have hi : i ≠ q := h (i, e) (List.mem_cons_self _ _)
    cases e <;> first | exact ht | exact ⟨fun hq => absurd hq hi, ht⟩

theorem timed_accept (w : World) (hm : w.mounted = true) (h : w.app.isLoading = false)
    (hfresh : ∀ entry ∈ w.trace, entry.1 ≠ w.queries.length) :
    Timed w.queries.length (step w (.invoke .compareRequests)) Comparison.fresh := by
  rw [step_invoke_compareRequests w hm h]
  refine ⟨accepted_queries_getElem? _ _ _ _, by simp [Comparison.fresh],
    by simp [Comparison.fresh], ?_⟩
  have ht := timingFirst_of_fresh _ _ hfresh
  simp only [accepted, List.map, List.cons_append, List.nil_append]
  refine timingFirst_cons _ _ _ (by intro p; simp) (timingFirst_cons _ _ _ (by intro p; simp) ?_)
  refine ⟨fun _ => ⟨fun hd => ?_, fun hd => ?_⟩, ?_⟩
  · simp [People.empty, Results.displayed] at hd
  · simp [People.empty, Results.displayed] at hd
  · exact timingFirst_cons _ _ _ (by intro p; simp) (timingFirst_cons _ _ _ (by intro p; simp) ht)

theorem timingFirst_split (q : Nat) (people : People) (earlier : List (Nat × Effect)) :
    ∀ (later t : List (Nat × Effect)), timingFirst q t →
      t = later ++ (q, .setPeople people) :: earlier →
      (people.axios.displayed = true → wrote q "axiosTime" earlier = true) ∧
        (people.fetch.displayed = true → wrote q "fetchTime" earlier = true) := by
  intro later
  induction later with
  | nil =>
    intro t ht heq
    subst heq
    exact ht.1 rfl
  | cons x later ih =>
    intro t ht heq
    subst heq
    obtain ⟨i, e⟩ := x
    refine ih _ ?_ rfl
    cases e <;> first | exact ht | exact ht.2

theorem mem_of_wrote (q : Nat) (key : String) (t : List (Nat × Effect))
    (h : wrote q key t = true) : ∃ value, (q, Effect.setItem key value) ∈ t := by
  simp only [wrote, List.any_eq_true] at h
  obtain ⟨⟨i, e⟩, hmem, hx⟩ := h
  cases e <;> simp at hx
  obtain ⟨rfl, rfl⟩ := hx
  exact ⟨_, hmem⟩

/-- C6, amended to `compareRequests`: take an accepted comparison (the busy flag is down,
`App` is on the page, and the entries already in the log belong to earlier queries)
followed by any events of its run, the store accepting or refusing each timing, and any
`setPeople` of the comparison in the resulting log. If it makes the panel of axios show
records, a `localStorage.setItem("axiosTime", ...)` of the comparison that the store
accepted stands earlier in the log, and likewise `fetchTime` for the panel of fetch. -/
theorem compare_timing_precedes_display (w : World) (events : List Event)
    (later earlier : List (Nat × Effect)) (people : People)
    (hm : w.mounted = true) (h : w.app.isLoading = false)
    (hfresh : ∀ entry ∈ w.trace, entry.1 ≠ w.queries.length)
    (hev : ∀ e ∈ events, e.within w.queries.length = true)
    (hsplit : (run w (.invoke .compareRequests :: events)).trace
      = later ++ (w.queries.length, .setPeople people) :: earlier) :
    (people.axios.displayed = true →
        ∃ value, (w.queries.length, Effect.setItem "axiosTime" value) ∈ earlier) ∧
      (people.fetch.displayed = true →
        ∃ value, (w.queries.length, Effect.setItem "fetchTime" value) ∈ earlier) := by
  have key := timed_run w.queries.length events _ _ (timed_accept w hm h hfresh) hev
  have hs := timingFirst_split w.queries.length people earlier later _ key.2.2.2 hsplit
  exact ⟨fun hd => mem_of_wrote _ _ _ (hs.1 hd), fun hd => mem_of_wrote _ _ _ (hs.2 hd)⟩

/-- C6, amended, at a concrete input: both adapters succeed; the entries before the
publishing `setPeople` hold the write of `axiosTime`. -/
theorem compare_timing_precedes_display_witness :
    ∃ value, (0, Effect.setItem "axiosTime" value) ∈
      [(0, Effect.setFetchTime (toFixed2 1300)), (0, .setItem "fetchTime" (toFixed2 1300)),
        (0, .consoleLog ("Fetch" ++ " tomó: " ++ toFixed2 1300 ++ "ms")),
        (0, .setAxiosTime (toFixed2 1234)), (0, .setItem "axiosTime" (toFixed2 1234)),
        (0, .consoleLog ("Axios" ++ " tomó: " ++ toFixed2 1234 ++ "ms")),
        (0, .request .fetch (url "" "US")), (0, .request .axios (url "" "US")),
        (0, .setPeople People.empty), (0, .setLoadingType "compare"),
        (0, .setIsLoading true)] :=
  (compare_timing_precedes_display (init emptyStore)
    [.fetchResponds 0 (.responded true 200 "OK"),
      .axiosSettles 0 (.resolved (.object (.records [alice]))) 1234 .accepted,
      .bodyRead 0 (.parsed (.object (.records [alice]))) 1300 .accepted]
    [(0, .setTimeout 500)] _ { axios := .records [alice], fetch := .records [alice] }
    rfl rfl (by intro entry he; cases he) (by decide) rfl).1 rfl

end App
